import Mathlib

/-!
Verification of the cashola persistence library (src/src/index.ts) against its
natural-language specification.

The development shallowly embeds the TypeScript source:
* `JsValue` models the JavaScript runtime values handled by the library
  (numbers are modelled as integers; floating point is out of scope).
* `stringifyChars` / `parseJson` model the platform encoders `JSON.stringify`
  and `JSON.parse` on such values.
* `FS` models the relevant slice of the filesystem (a set of directories and a
  map from paths to file contents); JavaScript exceptions are modelled by
  `JsError`, and a thrown exception does not roll back state, so stateful
  operations return their final state alongside an `Except` result.
* The `Cashola` namespace contains the faithful translations of the private
  and public methods of the `Cashola` class.
-/

/-- A JavaScript runtime value, as far as the library distinguishes them.
`undef` is `undefined`, `fn` is any function value; both have no JSON data
representation.  Numbers are modelled as arbitrary-precision integers. -/
inductive JsValue where
  | undef : JsValue
  | null : JsValue
  | bool : Bool → JsValue
  | num : Int → JsValue
  | str : String → JsValue
  | arr : List JsValue → JsValue
  | obj : List (String × JsValue) → JsValue
  | fn : JsValue

/-- The JavaScript `typeof` operator.  Note `typeof null` is `"object"`. -/
def typeof : JsValue → String
  | .undef => "undefined"
  | .null => "object"
  | .bool _ => "boolean"
  | .num _ => "number"
  | .str _ => "string"
  | .arr _ => "object"
  | .obj _ => "object"
  | .fn => "function"

/-- The JavaScript `Array.isArray` predicate. -/
def isArray : JsValue → Bool
  | .arr _ => true
  | _ => false

/-- A value that `JSON.stringify` skips when it occurs as an object field
(`undefined` and functions). -/
def isSkippedField : JsValue → Bool
  | .undef => true
  | .fn => true
  | _ => false

/-- The decimal digit character for a digit `d < 10`. -/
def digitCh (d : Nat) : Char := Char.ofNat (48 + d)

/-- Big-endian decimal digit characters of `n`, assuming `n < 10 ^ fuel`;
`[]` for `n = 0`. -/
def natCharsAux : Nat → Nat → List Char
  | 0, _ => []
  | Nat.succ fuel, n =>
    if n = 0 then [] else natCharsAux fuel (n / 10) ++ [digitCh (n % 10)]

/-- Decimal representation of a natural number, as emitted by
`JSON.stringify`. -/
def natChars (n : Nat) : List Char :=
  if n = 0 then ['0'] else natCharsAux (n + 1) n

/-- Decimal representation of an integer, as emitted by `JSON.stringify`. -/
def intChars : Int → List Char
  | .ofNat m => natChars m
  | .negSucc m => '-' :: natChars (m + 1)

/-- Lower-case hexadecimal digit character for `n < 16`. -/
def hexCh (n : Nat) : Char :=
  if n < 10 then Char.ofNat (48 + n) else Char.ofNat (87 + n)

/-- The escape sequence `JSON.stringify` emits for one string character. -/
def escapeChar (c : Char) : List Char :=
  if c = '"' then ['\\', '"']
  else if c = '\\' then ['\\', '\\']
  else if c = '\n' then ['\\', 'n']
  else if c = '\t' then ['\\', 't']
  else if c = '\r' then ['\\', 'r']
  else if c = Char.ofNat 8 then ['\\', 'b']
  else if c = Char.ofNat 12 then ['\\', 'f']
  else if c.toNat < 32 then
    ['\\', 'u', '0', '0', hexCh (c.toNat / 16), hexCh (c.toNat % 16)]
  else [c]

/-- Escape a whole string body as `JSON.stringify` does. -/
def escapeString : List Char → List Char
  | [] => []
  | c :: rest => escapeChar c ++ escapeString rest

mutual
/-- The character stream `JSON.stringify` produces for a value.
A top-level `undefined` or function has no JSON encoding (real
`JSON.stringify` returns `undefined` there); that case is unreachable through
the library because `checkInput` rejects such values first, and it is modelled
as `"null"`, which is also the faithful encoding of `undefined` or a function
occurring inside an array. -/
def stringifyChars : JsValue → List Char
  | .undef => "null".toList
  | .fn => "null".toList
  | .null => "null".toList
  | .bool true => "true".toList
  | .bool false => "false".toList
  | .num n => intChars n
  | .str s => '"' :: (escapeString s.toList ++ ['"'])
  | .arr l => '[' :: (arrItems l true ++ [']'])
  | .obj l => '{' :: (objFields l true ++ ['}'])

/-- Comma-separated encodings of the elements of an array. -/
def arrItems : List JsValue → Bool → List Char
  | [], _ => []
  | v :: rest, first =>
    (if first then [] else [',']) ++ stringifyChars v ++ arrItems rest false

/-- Comma-separated `"key":value` encodings of the fields of an object;
fields whose value is `undefined` or a function are dropped, exactly as
`JSON.stringify` drops them. -/
def objFields : List (String × JsValue) → Bool → List Char
  | [], _ => []
  | (k, v) :: rest, first =>
    if isSkippedField v then objFields rest first
    else
      (if first then [] else [',']) ++
        ('"' :: (escapeString k.toList ++ ['"', ':'])) ++
        stringifyChars v ++ objFields rest false
end

/-- The string `JSON.stringify` produces for a value. -/
def stringify (v : JsValue) : String := String.mk (stringifyChars v)

mutual
/-- A pure data value: contains no `undefined` and no function anywhere.
Every value that JavaScript code builds from JSON data satisfies this. -/
def wf : JsValue → Bool
  | .undef => false
  | .fn => false
  | .null => true
  | .bool _ => true
  | .num _ => true
  | .str _ => true
  | .arr l => wfItems l
  | .obj l => wfFields l

/-- All elements of the list are pure data values. -/
def wfItems : List JsValue → Bool
  | [] => true
  | v :: rest => wf v && wfItems rest

/-- All field values of the list are pure data values. -/
def wfFields : List (String × JsValue) → Bool
  | [] => true
  | (_, v) :: rest => wf v && wfFields rest
end

mutual
/-- Size measure used to bound the fuel the JSON parser needs. -/
def jsize : JsValue → Nat
  | .arr l => 1 + jsizeItems l
  | .obj l => 1 + jsizeFields l
  | _ => 1

/-- Size measure for array element lists. -/
def jsizeItems : List JsValue → Nat
  | [] => 0
  | v :: rest => 1 + jsize v + jsizeItems rest

/-- Size measure for object field lists. -/
def jsizeFields : List (String × JsValue) → Nat
  | [] => 0
  | (_, v) :: rest => 1 + jsize v + jsizeFields rest
end

/-- JSON insignificant whitespace. -/
def isWsChar (c : Char) : Bool :=
  c = ' ' || c = '\n' || c = '\t' || c = '\r'

/-- Drop leading JSON whitespace. -/
def skipWs : List Char → List Char
  | [] => []
  | c :: rest => if isWsChar c then skipWs rest else c :: rest

/-- Is `c` a decimal digit character? -/
def isDigitCh (c : Char) : Bool :=
  48 ≤ c.toNat && c.toNat ≤ 57

/-- Does the input not start with a decimal digit?  Used to delimit number
literals. -/
def noDigitHead : List Char → Bool
  | [] => true
  | c :: _ => !isDigitCh c

/-- Value of a hexadecimal digit character, if it is one. -/
def hexVal (c : Char) : Option Nat :=
  if 48 ≤ c.toNat ∧ c.toNat ≤ 57 then some (c.toNat - 48)
  else if 97 ≤ c.toNat ∧ c.toNat ≤ 102 then some (c.toNat - 87)
  else if 65 ≤ c.toNat ∧ c.toNat ≤ 70 then some (c.toNat - 55)
  else none

mutual
/-- Parse the body of a JSON string literal (after the opening quote),
returning the decoded characters and the input after the closing quote.
Models the string grammar accepted by `JSON.parse`. -/
def parseStrBody (cs : List Char) : Option (List Char × List Char) :=
  match cs with
  | [] => none
  | c :: rest =>
    if c = '"' then some ([], rest)
    else if c = '\\' then parseEsc rest
    else if c.toNat < 32 then none
    else
      match parseStrBody rest with
      | some (s, r) => some (c :: s, r)
      | none => none

/-- Decode one escape sequence (the part after the backslash) and continue
with the remaining string body. -/
def parseEsc (cs : List Char) : Option (List Char × List Char) :=
  match cs with
  | [] => none
  | e :: rest2 =>
    if e = '"' ∨ e = '\\' ∨ e = '/' then
      match parseStrBody rest2 with
      | some (s, r) => some (e :: s, r)
      | none => none
    else if e = 'n' then
      match parseStrBody rest2 with
      | some (s, r) => some ('\n' :: s, r)
      | none => none
    else if e = 't' then
      match parseStrBody rest2 with
      | some (s, r) => some ('\t' :: s, r)
      | none => none
    else if e = 'r' then
      match parseStrBody rest2 with
      | some (s, r) => some ('\r' :: s, r)
      | none => none
    else if e = 'b' then
      match parseStrBody rest2 with
      | some (s, r) => some (Char.ofNat 8 :: s, r)
      | none => none
    else if e = 'f' then
      match parseStrBody rest2 with
      | some (s, r) => some (Char.ofNat 12 :: s, r)
      | none => none
    else if e = 'u' then parseUEsc rest2
    else none

/-- Decode a `\uXXXX` escape (the four hex digits after `\u`) and continue
with the remaining string body. -/
def parseUEsc (cs : List Char) : Option (List Char × List Char) :=
  match cs with
  | h1 :: h2 :: h3 :: h4 :: rest6 =>
    match hexVal h1, hexVal h2, hexVal h3, hexVal h4 with
    | some a, some b, some c3, some d =>
      match parseStrBody rest6 with
      | some (s, r) =>
        some (Char.ofNat (((a * 16 + b) * 16 + c3) * 16 + d) :: s, r)
      | none => none
    | _, _, _, _ => none
  | _ => none
end

/-- Consume a maximal run of decimal digits, folding them onto `acc`. -/
def parseDigits : List Char → Nat → Nat × List Char
  | [], acc => (acc, [])
  | c :: rest, acc =>
    if isDigitCh c then parseDigits rest (acc * 10 + (c.toNat - 48))
    else (acc, c :: rest)

mutual
/-- Fuel-indexed JSON value parser, modelling `JSON.parse` on the fragment the
library can produce (integers only; no fraction or exponent parts). -/
def parseVal : Nat → List Char → Option (JsValue × List Char)
  | 0, _ => none
  | Nat.succ fuel, cs =>
    match skipWs cs with
    | [] => none
    | c :: rest =>
      if c = 'n' then
        match rest with
        | 'u' :: 'l' :: 'l' :: r => some (.null, r)
        | _ => none
      else if c = 't' then
        match rest with
        | 'r' :: 'u' :: 'e' :: r => some (.bool true, r)
        | _ => none
      else if c = 'f' then
        match rest with
        | 'a' :: 'l' :: 's' :: 'e' :: r => some (.bool false, r)
        | _ => none
      else if c = '"' then
        match parseStrBody rest with
        | some (s, r) => some (.str (String.mk s), r)
        | none => none
      else if c = '-' then
        match rest with
        | d :: _ =>
          if isDigitCh d then
            let p := parseDigits rest 0
            some (.num (-(p.1 : Int)), p.2)
          else none
        | [] => none
      else if isDigitCh c then
        let p := parseDigits (c :: rest) 0
        some (.num (p.1 : Int), p.2)
      else if c = '[' then
        match skipWs rest with
        | [] => none
        | c2 :: r2 =>
          if c2 = ']' then some (.arr [], r2)
          else
            match parseItems fuel (c2 :: r2) with
            | some (items, r) => some (.arr items, r)
            | none => none
      else if c = '{' then
        match skipWs rest with
        | [] => none
        | c2 :: r2 =>
          if c2 = '}' then some (.obj [], r2)
          else
            match parseFields fuel (c2 :: r2) with
            | some (fields, r) => some (.obj fields, r)
            | none => none
      else none

/-- Parse one or more comma-separated array elements followed by `]`. -/
def parseItems : Nat → List Char → Option (List JsValue × List Char)
  | 0, _ => none
  | Nat.succ fuel, cs =>
    match parseVal fuel cs with
    | none => none
    | some (v, r) =>
      match skipWs r with
      | ',' :: r2 =>
        match parseItems fuel r2 with
        | some (items, r3) => some (v :: items, r3)
        | none => none
      | ']' :: r2 => some ([v], r2)
      | _ => none

/-- Parse one or more comma-separated object members followed by `}`. -/
def parseFields : Nat → List Char → Option (List (String × JsValue) × List Char)
  | 0, _ => none
  | Nat.succ fuel, cs =>
    match skipWs cs with
    | '"' :: r =>
      match parseStrBody r with
      | none => none
      | some (kcs, r2) =>
        match skipWs r2 with
        | ':' :: r3 =>
          match parseVal fuel r3 with
          | none => none
          | some (v, r4) =>
            match skipWs r4 with
            | ',' :: r5 =>
              match parseFields fuel r5 with
              | some (fields, r6) => some ((String.mk kcs, v) :: fields, r6)
              | none => none
            | '}' :: r5 => some ([(String.mk kcs, v)], r5)
            | _ => none
        | _ => none
    | _ => none
end

/-- The model of `JSON.parse`: parse a full text, requiring only whitespace
after the value; `none` models a thrown `SyntaxError`. -/
def parseJson (s : String) : Option JsValue :=
  match parseVal (s.length + 1) s.toList with
  | some (v, rest) => if skipWs rest = [] then some v else none
  | none => none

/-! ### Character and digit lemmas -/

/-- `Char.ofNat` below the surrogate range decodes to the same code point. -/
theorem toNat_charOfNat {n : Nat} (h : n < 55296) : (Char.ofNat n).toNat = n := by
  rw [Char.ofNat, dif_pos (Or.inl h : n.isValidChar)]
  rfl

/-- Code point of a digit character. -/
theorem toNat_digitCh {d : Nat} (h : d < 10) : (digitCh d).toNat = 48 + d :=
  toNat_charOfNat (by omega)

/-- Digit characters satisfy the digit test. -/
theorem isDigitCh_digitCh {d : Nat} (h : d < 10) : isDigitCh (digitCh d) = true := by
  simp [isDigitCh, toNat_digitCh h]
  omega

/-- Every character `natCharsAux` emits is a decimal digit. -/
theorem natCharsAux_all_digit :
    ∀ fuel n, ∀ c ∈ natCharsAux fuel n, isDigitCh c = true := by
  intro fuel
  induction fuel with
  | zero => intro n c hc; simp [natCharsAux] at hc
  | succ f ih =>
    intro n c hc
    by_cases hn : n = 0
    · simp [natCharsAux, hn] at hc
    · simp only [natCharsAux, if_neg hn, List.mem_append, List.mem_singleton] at hc
      rcases hc with hc | hc
      · exact ih _ _ hc
      · subst hc
        exact isDigitCh_digitCh (Nat.mod_lt _ (by omega))

/-- Every character `natChars` emits is a decimal digit. -/
theorem natChars_all_digit {n : Nat} : ∀ c ∈ natChars n, isDigitCh c = true := by
  intro c hc
  by_cases hn : n = 0
  · simp [natChars, hn] at hc
    subst hc
    decide
  · simp only [natChars, if_neg hn] at hc
    exact natCharsAux_all_digit _ _ _ hc

/-- The decimal representation is never empty. -/
theorem natChars_ne_nil (n : Nat) : natChars n ≠ [] := by
  by_cases hn : n = 0
  · simp [natChars, hn]
  · simp [natChars, hn, natCharsAux]

/-- Folding the digit characters of `n` onto an accumulator reconstructs `n`
in base ten. -/
theorem foldl_natCharsAux :
    ∀ fuel n acc, n < 10 ^ fuel →
      (natCharsAux fuel n).foldl (fun a c => a * 10 + (c.toNat - 48)) acc
        = acc * 10 ^ (natCharsAux fuel n).length + n := by
  intro fuel
  induction fuel with
  | zero =>
    intro n acc hn
    have : n = 0 := by omega
    simp [natCharsAux, this]
  | succ f ih =>
    intro n acc hn
    by_cases h0 : n = 0
    · simp [natCharsAux, h0]
    · have hdiv : n / 10 < 10 ^ f := by
        rw [Nat.div_lt_iff_lt_mul (by omega)]
        calc n < 10 ^ (f + 1) := hn
        _ = 10 ^ f * 10 := by ring
      simp only [natCharsAux, if_neg h0, List.foldl_append, List.foldl_cons,
        List.foldl_nil, List.length_append, List.length_cons, List.length_nil]
      rw [ih (n / 10) acc hdiv, toNat_digitCh (Nat.mod_lt _ (by omega))]
      have : 48 + n % 10 - 48 = n % 10 := by omega
      rw [this]
      have hmod := Nat.div_add_mod n 10
      ring_nf
      omega

/-- Parsing a run of digit characters followed by a non-digit consumes exactly
the run and folds its value onto the accumulator. -/
theorem parseDigits_append :
    ∀ (l rest : List Char) (acc : Nat),
      (∀ c ∈ l, isDigitCh c = true) → noDigitHead rest = true →
      parseDigits (l ++ rest) acc
        = (l.foldl (fun a c => a * 10 + (c.toNat - 48)) acc, rest) := by
  intro l
  induction l with
  | nil =>
    intro rest acc _ hrest
    cases rest with
    | nil => rfl
    | cons c r =>
      have hc : isDigitCh c = false := by
        simpa [noDigitHead] using hrest
      simp [parseDigits, hc]
  | cons c l ih =>
    intro rest acc hl hrest
    have hc : isDigitCh c = true := hl c (by simp)
    simp only [List.cons_append, parseDigits, hc, if_true, List.foldl_cons]
    exact ih rest _ (fun c hc => hl c (by simp [hc])) hrest

/-- Parsing the decimal representation of `n` yields `n`. -/
theorem parseDigits_natChars (n : Nat) (rest : List Char)
    (hrest : noDigitHead rest = true) :
    parseDigits (natChars n ++ rest) 0 = (n, rest) := by
  rw [parseDigits_append (natChars n) rest 0 natChars_all_digit hrest]
  by_cases hn : n = 0
  · subst hn
    simp [natChars]
  · simp only [natChars, if_neg hn]
    have hfuel : n < 10 ^ (n + 1) := by
      calc n < 10 ^ n := Nat.lt_pow_self (by omega) n
      _ ≤ 10 ^ (n + 1) := Nat.pow_le_pow_right (by omega) (by omega)
    rw [foldl_natCharsAux (n + 1) n 0 hfuel]
    simp



/-! ### String escaping round-trip -/

/-- Hex digit characters decode to their value. -/
theorem hexVal_hexCh {n : Nat} (h : n < 16) : hexVal (hexCh n) = some n := by
  by_cases h10 : n < 10
  · have ht : (Char.ofNat (48 + n)).toNat = 48 + n := toNat_charOfNat (by omega)
    rw [hexCh, if_pos h10, hexVal, if_pos (by omega)]
    congr 1
    omega
  · have ht : (Char.ofNat (87 + n)).toNat = 87 + n := toNat_charOfNat (by omega)
    rw [hexCh, if_neg h10, hexVal, if_neg (by omega), if_pos (by omega)]
    congr 1
    omega

/-- Decoding an escaped string body stops at the unescaped closing quote and
recovers the original characters. -/
theorem parseStrBody_escape :
    ∀ (l rest : List Char),
      parseStrBody (escapeString l ++ '"' :: rest) = some (l, rest) := by
  intro l
  induction l with
  | nil =>
    intro rest
    simp only [escapeString, List.nil_append]
    rfl
  | cons c l ih =>
    intro rest
    show parseStrBody ((escapeChar c ++ escapeString l) ++ '"' :: rest) = _
    rw [List.append_assoc]
    by_cases h1 : c = '"'
    · subst h1
      rw [show escapeChar '"' = ['\\', '"'] from rfl]
      simp [parseStrBody, parseEsc, ih]
    by_cases h2 : c = '\\'
    · subst h2
      rw [show escapeChar '\\' = ['\\', '\\'] from rfl]
      simp [parseStrBody, parseEsc, ih]
    by_cases h3 : c = '\n'
    · subst h3
      rw [show escapeChar '\n' = ['\\', 'n'] from rfl]
      simp [parseStrBody, parseEsc, ih]
    by_cases h4 : c = '\t'
    · subst h4
      rw [show escapeChar '\t' = ['\\', 't'] from rfl]
      simp [parseStrBody, parseEsc, ih]
    by_cases h5 : c = '\r'
    · subst h5
      rw [show escapeChar '\r' = ['\\', 'r'] from rfl]
      simp [parseStrBody, parseEsc, ih]
    by_cases h6 : c = Char.ofNat 8
    · subst h6
      rw [show escapeChar (Char.ofNat 8) = ['\\', 'b'] from rfl]
      simp [parseStrBody, parseEsc, ih]
    by_cases h7 : c = Char.ofNat 12
    · subst h7
      rw [show escapeChar (Char.ofNat 12) = ['\\', 'f'] from rfl]
      simp [parseStrBody, parseEsc, ih]
    by_cases h8 : c.toNat < 32
    · have e : escapeChar c
          = ['\\', 'u', '0', '0', hexCh (c.toNat / 16), hexCh (c.toNat % 16)] := by
        rw [escapeChar, if_neg h1, if_neg h2, if_neg h3, if_neg h4, if_neg h5,
          if_neg h6, if_neg h7, if_pos h8]
      rw [e]
      have hd : hexVal (hexCh (c.toNat / 16)) = some (c.toNat / 16) :=
        hexVal_hexCh (by omega)
      have hm : hexVal (hexCh (c.toNat % 16)) = some (c.toNat % 16) :=
        hexVal_hexCh (Nat.mod_lt _ (by omega))
      have h0 : hexVal '0' = some 0 := rfl
      simp [parseStrBody, parseEsc, parseUEsc, h0, hd, hm, ih]
      rw [show c.toNat / 16 * 16 + c.toNat % 16 = c.toNat by omega]
      exact Char.ofNat_toNat c
    · have e : escapeChar c = [c] := by
        rw [escapeChar, if_neg h1, if_neg h2, if_neg h3, if_neg h4, if_neg h5,
          if_neg h6, if_neg h7, if_neg h8]
      rw [e]
      show parseStrBody (c :: (escapeString l ++ '"' :: rest)) = _
      rw [parseStrBody]
      simp only [if_neg h1, if_neg h2, if_neg h8, ih]

/-! ### Head-character facts and helpers for the main round-trip -/

/-- `skipWs` is the identity on input not starting with whitespace. -/
theorem skipWs_cons {c : Char} {l : List Char} (h : isWsChar c = false) :
    skipWs (c :: l) = c :: l := by
  simp [skipWs, h]

/-- Bounds of a digit character's code point. -/
theorem isDigitCh_bounds {c : Char} (h : isDigitCh c = true) :
    48 ≤ c.toNat ∧ c.toNat ≤ 57 := by
  simpa [isDigitCh] using h

/-- Digit characters are not whitespace. -/
theorem digit_not_ws {c : Char} (h : isDigitCh c = true) : isWsChar c = false := by
  rcases isDigitCh_bounds h with ⟨hl, hr⟩
  have h1 : c ≠ ' ' := by intro he; subst he; exact absurd hl (by decide)
  have h2 : c ≠ '\n' := by intro he; subst he; exact absurd hl (by decide)
  have h3 : c ≠ '\t' := by intro he; subst he; exact absurd hl (by decide)
  have h4 : c ≠ '\r' := by intro he; subst he; exact absurd hl (by decide)
  simp [isWsChar, h1, h2, h3, h4]

/-- A digit character differs from any non-digit character. -/
theorem digit_ne {c x : Char} (h : isDigitCh c = true) (hx : isDigitCh x = false) :
    c ≠ x := by
  intro he
  rw [he, hx] at h
  cases h

/-- Every value has positive size. -/
theorem jsize_pos (v : JsValue) : 1 ≤ jsize v := by
  cases v <;> simp [jsize]

/-- Size of an array value. -/
theorem jsize_arr (l : List JsValue) : jsize (.arr l) = 1 + jsizeItems l := by
  simp [jsize]

/-- Size of an object value. -/
theorem jsize_obj (l : List (String × JsValue)) :
    jsize (.obj l) = 1 + jsizeFields l := by
  simp [jsize]

/-- Size of a nonempty element list. -/
theorem jsizeItems_cons (v : JsValue) (rest : List JsValue) :
    jsizeItems (v :: rest) = 1 + jsize v + jsizeItems rest := by
  simp [jsizeItems]

/-- Size of a nonempty field list. -/
theorem jsizeFields_cons (k : String) (v : JsValue)
    (rest : List (String × JsValue)) :
    jsizeFields ((k, v) :: rest) = 1 + jsize v + jsizeFields rest := by
  simp [jsizeFields]

/-- Well-formedness of an array passes to its element list. -/
theorem wf_arr {l : List JsValue} (h : wf (.arr l) = true) : wfItems l = true := by
  simpa [wf] using h

/-- Well-formedness of an object passes to its field list. -/
theorem wf_obj {l : List (String × JsValue)} (h : wf (.obj l) = true) :
    wfFields l = true := by
  simpa [wf] using h

/-- Well-formedness of a nonempty element list splits. -/
theorem wfItems_cons {v : JsValue} {rest : List JsValue}
    (h : wfItems (v :: rest) = true) : wf v = true ∧ wfItems rest = true := by
  simpa [wfItems] using h

/-- Well-formedness of a nonempty field list splits. -/
theorem wfFields_cons {k : String} {v : JsValue} {rest : List (String × JsValue)}
    (h : wfFields ((k, v) :: rest) = true) : wf v = true ∧ wfFields rest = true := by
  simpa [wfFields] using h

/-- A pure data value is never a dropped field. -/
theorem wf_not_skipped {v : JsValue} (h : wf v = true) :
    isSkippedField v = false := by
  cases v
  · simp [wf] at h
  · rfl
  · rfl
  · rfl
  · rfl
  · rfl
  · rfl
  · simp [wf] at h

/-- The encoding of any value starts with a character that is not whitespace
and not a closing bracket. -/
theorem stringifyChars_head (v : JsValue) :
    ∃ c t, stringifyChars v = c :: t ∧ isWsChar c = false ∧ c ≠ ']' ∧ c ≠ '}' := by
  cases v with
  | undef =>
    exact ⟨'n', ['u', 'l', 'l'], by simp [stringifyChars], by decide, by decide,
      by decide⟩
  | fn =>
    exact ⟨'n', ['u', 'l', 'l'], by simp [stringifyChars], by decide, by decide,
      by decide⟩
  | null =>
    exact ⟨'n', ['u', 'l', 'l'], by simp [stringifyChars], by decide, by decide,
      by decide⟩
  | bool b =>
    cases b
    · exact ⟨'f', ['a', 'l', 's', 'e'], by simp [stringifyChars], by decide,
        by decide, by decide⟩
    · exact ⟨'t', ['r', 'u', 'e'], by simp [stringifyChars], by decide, by decide,
        by decide⟩
  | num n =>
    cases n with
    | ofNat m =>
      cases hnc : natChars m with
      | nil => exact absurd hnc (natChars_ne_nil m)
      | cons c t =>
        have hc : isDigitCh c = true := natChars_all_digit c (by rw [hnc]; simp)
        exact ⟨c, t, by simp [stringifyChars, intChars, hnc],
          digit_not_ws hc, digit_ne hc (by decide), digit_ne hc (by decide)⟩
    | negSucc m =>
      exact ⟨'-', natChars (m + 1), by simp [stringifyChars, intChars], by decide,
        by decide, by decide⟩
  | str s =>
    exact ⟨'"', escapeString s.toList ++ ['"'], by simp [stringifyChars],
      by decide, by decide, by decide⟩
  | arr l =>
    exact ⟨'[', arrItems l true ++ [']'], by simp [stringifyChars], by decide,
      by decide, by decide⟩
  | obj l =>
    exact ⟨'{', objFields l true ++ ['}'], by simp [stringifyChars], by decide,
      by decide, by decide⟩

/-- A non-first element list is rendered as a comma followed by the first-style
rendering. -/
theorem arrItems_false {l : List JsValue} (h : l ≠ []) :
    arrItems l false = ',' :: arrItems l true := by
  cases l with
  | nil => exact absurd rfl h
  | cons v rest => simp [arrItems]

/-- A non-first field list of a pure data object is rendered as a comma
followed by the first-style rendering. -/
theorem objFields_false {fl : List (String × JsValue)} (h : fl ≠ [])
    (hwf : wfFields fl = true) :
    objFields fl false = ',' :: objFields fl true := by
  cases fl with
  | nil => exact absurd rfl h
  | cons kv rest =>
    obtain ⟨k, v⟩ := kv
    have hv : isSkippedField v = false := wf_not_skipped (wfFields_cons hwf).1
    simp [objFields, hv]

/-- Parsing the encoding of a nonnegative integer. -/
theorem parseVal_natChars (f : Nat) (m : Nat) (rest : List Char)
    (hrest : noDigitHead rest = true) :
    parseVal (f + 1) (natChars m ++ rest) = some (.num (Int.ofNat m), rest) := by
  cases hnc : natChars m with
  | nil => exact absurd hnc (natChars_ne_nil m)
  | cons c t =>
    have hc : isDigitCh c = true := natChars_all_digit c (by rw [hnc]; simp)
    have hg := parseDigits_natChars m rest hrest
    rw [hnc] at hg
    simp only [List.cons_append] at hg
    have n1 : c ≠ 'n' := digit_ne hc (by decide)
    have n2 : c ≠ 't' := digit_ne hc (by decide)
    have n3 : c ≠ 'f' := digit_ne hc (by decide)
    have n4 : c ≠ '"' := digit_ne hc (by decide)
    have n5 : c ≠ '-' := digit_ne hc (by decide)
    simp only [List.cons_append, parseVal, skipWs_cons (digit_not_ws hc),
      n1, n2, n3, n4, n5, hc, if_false, if_true, ite_false, ite_true, hg]
    rfl

/-- Parsing the encoding of a negative integer. -/
theorem parseVal_negSuccChars (f m : Nat) (rest : List Char)
    (hrest : noDigitHead rest = true) :
    parseVal (f + 1) ('-' :: (natChars (m + 1) ++ rest))
      = some (.num (Int.negSucc m), rest) := by
  cases hnc : natChars (m + 1) with
  | nil => exact absurd hnc (natChars_ne_nil (m + 1))
  | cons c t =>
    have hc : isDigitCh c = true :=
      natChars_all_digit (n := m + 1) c (by rw [hnc]; simp)
    have hg := parseDigits_natChars (m + 1) rest hrest
    rw [hnc] at hg
    simp only [List.cons_append] at hg
    simp only [List.cons_append, parseVal, skipWs_cons (by decide : isWsChar '-' = false),
      hc, if_false, if_true, ite_false, ite_true, hg]
    norm_num
    rw [Int.negSucc_eq]
    push_cast
    ring_nf

/-- The tail after an element list's rendering never starts with a digit. -/
theorem noDigitHead_arrItems (vs : List JsValue) (rest : List Char) :
    noDigitHead (arrItems vs false ++ ']' :: rest) = true := by
  cases vs with
  | nil => simp [arrItems, noDigitHead]; decide
  | cons v vs => simp [arrItems, noDigitHead]; decide

/-- The tail after a field list's rendering never starts with a digit. -/
theorem noDigitHead_objFields (fl : List (String × JsValue)) (rest : List Char)
    (hwf : wfFields fl = true) :
    noDigitHead (objFields fl false ++ '}' :: rest) = true := by
  cases fl with
  | nil => simp [objFields, noDigitHead]; decide
  | cons kv fl =>
    obtain ⟨k, v⟩ := kv
    have hv : isSkippedField v = false := wf_not_skipped (wfFields_cons hwf).1
    simp [objFields, hv, noDigitHead]
    decide


mutual
/-- Main round-trip: parsing the rendering of a pure data value recovers the
value, with sufficient fuel and a non-digit continuation. -/
theorem parseVal_stringify (fuel : Nat) (v : JsValue) (rest : List Char)
    (hwf : wf v = true) (hsz : jsize v ≤ fuel) (hrest : noDigitHead rest = true) :
    parseVal fuel (stringifyChars v ++ rest) = some (v, rest) := by
  cases fuel with
  | zero => exact absurd hsz (by have := jsize_pos v; omega)
  | succ f =>
    cases v with
    | undef => simp [wf] at hwf
    | fn => simp [wf] at hwf
    | null =>
      rw [show stringifyChars .null = ['n', 'u', 'l', 'l'] by simp [stringifyChars]]
      rfl
    | bool b =>
      cases b
      · rw [show stringifyChars (.bool false) = ['f', 'a', 'l', 's', 'e'] by
          simp [stringifyChars]]
        rfl
      · rw [show stringifyChars (.bool true) = ['t', 'r', 'u', 'e'] by
          simp [stringifyChars]]
        rfl
    | num n =>
      cases n with
      | ofNat m =>
        rw [show stringifyChars (.num (.ofNat m)) = natChars m by
          simp [stringifyChars, intChars]]
        exact parseVal_natChars f m rest hrest
      | negSucc m =>
        rw [show stringifyChars (.num (.negSucc m)) = '-' :: natChars (m + 1) by
          simp [stringifyChars, intChars]]
        rw [List.cons_append]
        exact parseVal_negSuccChars f m rest hrest
    | str s =>
      rw [show stringifyChars (.str s) = '"' :: (escapeString s.toList ++ ['"']) by
        simp [stringifyChars]]
      simp only [List.cons_append, List.append_assoc, List.singleton_append,
        List.nil_append]
      rw [show parseVal (f + 1) ('"' :: (escapeString s.toList ++ '"' :: rest))
            = (match parseStrBody (escapeString s.toList ++ '"' :: rest) with
               | some (sb, r) => some (JsValue.str (String.mk sb), r)
               | none => none) from rfl]
      rw [parseStrBody_escape]
      rfl
    | arr l =>
      rw [show stringifyChars (.arr l) = '[' :: (arrItems l true ++ [']']) by
        simp [stringifyChars]]
      simp only [List.cons_append, List.append_assoc, List.singleton_append,
        List.nil_append]
      cases l with
      | nil =>
        rw [show arrItems [] true = [] by simp [arrItems], List.nil_append]
        rfl
      | cons v vs =>
        have hitems := parseItems_stringify f v vs rest (wf_arr hwf)
          (by rw [jsize_arr] at hsz; omega)
        obtain ⟨c, t, he, hws, hbr, hbr2⟩ := stringifyChars_head v
        have harr : arrItems (v :: vs) true
            = stringifyChars v ++ arrItems vs false := by
          simp [arrItems]
        have hcX : arrItems (v :: vs) true ++ ']' :: rest
            = c :: (t ++ (arrItems vs false ++ ']' :: rest)) := by
          rw [harr, he]
          simp [List.append_assoc]
        have step1 : parseVal (f + 1) ('[' :: (arrItems (v :: vs) true ++ ']' :: rest))
            = (match skipWs (arrItems (v :: vs) true ++ ']' :: rest) with
               | [] => none
               | c2 :: r2 =>
                 if c2 = ']' then some (JsValue.arr [], r2)
                 else
                   match parseItems f (c2 :: r2) with
                   | some (items, r) => some (JsValue.arr items, r)
                   | none => none) := rfl
        rw [step1, hcX, skipWs_cons hws]
        have step2 : (match (c :: (t ++ (arrItems vs false ++ ']' :: rest)) : List Char) with
             | [] => none
             | c2 :: r2 =>
               if c2 = ']' then some (JsValue.arr [], r2)
               else
                 match parseItems f (c2 :: r2) with
                 | some (items, r) => some (JsValue.arr items, r)
                 | none => none)
            = (if c = ']' then
                 some (JsValue.arr [], t ++ (arrItems vs false ++ ']' :: rest))
               else
                 match parseItems f (c :: (t ++ (arrItems vs false ++ ']' :: rest))) with
                 | some (items, r) => some (JsValue.arr items, r)
                 | none => none) := rfl
        rw [step2, if_neg hbr, ← hcX, hitems]
    | obj l =>
      rw [show stringifyChars (.obj l) = '{' :: (objFields l true ++ ['}']) by
        simp [stringifyChars]]
      simp only [List.cons_append, List.append_assoc, List.singleton_append,
        List.nil_append]
      cases l with
      | nil =>
        rw [show objFields [] true = [] by simp [objFields], List.nil_append]
        rfl
      | cons kv fl =>
        obtain ⟨k, v⟩ := kv
        have hwff := wf_obj hwf
        have hfields := parseFields_stringify f k v fl rest hwff
          (by rw [jsize_obj] at hsz; omega)
        have hv0 : isSkippedField v = false := wf_not_skipped (wfFields_cons hwff).1
        have hcX : objFields ((k, v) :: fl) true ++ '}' :: rest
            = '"' :: (escapeString k.toList
              ++ '"' :: ':' :: (stringifyChars v ++ (objFields fl false ++ '}' :: rest))) := by
          simp [objFields, hv0, List.append_assoc]
        have step1 : parseVal (f + 1) ('{' :: (objFields ((k, v) :: fl) true ++ '}' :: rest))
            = (match skipWs (objFields ((k, v) :: fl) true ++ '}' :: rest) with
               | [] => none
               | c2 :: r2 =>
                 if c2 = '}' then some (JsValue.obj [], r2)
                 else
                   match parseFields f (c2 :: r2) with
                   | some (flds, r) => some (JsValue.obj flds, r)
                   | none => none) := rfl
        rw [step1, hcX, skipWs_cons (by decide : isWsChar '"' = false)]
        have step2 : (match ('"' :: (escapeString k.toList
               ++ '"' :: ':' :: (stringifyChars v ++ (objFields fl false ++ '}' :: rest))) : List Char) with
             | [] => none
             | c2 :: r2 =>
               if c2 = '}' then some (JsValue.obj [], r2)
               else
                 match parseFields f (c2 :: r2) with
                 | some (flds, r) => some (JsValue.obj flds, r)
                 | none => none)
            = (match parseFields f ('"' :: (escapeString k.toList
                ++ '"' :: ':' :: (stringifyChars v ++ (objFields fl false ++ '}' :: rest)))) with
               | some (flds, r) => some (JsValue.obj flds, r)
               | none => none) := rfl
        rw [step2, ← hcX, hfields]
  termination_by (fuel, 0)

/-- Round-trip for a nonempty array element list rendering. -/
theorem parseItems_stringify (fuel : Nat) (v : JsValue) (vs : List JsValue)
    (rest : List Char) (hwf : wfItems (v :: vs) = true)
    (hsz : jsizeItems (v :: vs) ≤ fuel) :
    parseItems fuel (arrItems (v :: vs) true ++ ']' :: rest)
      = some (v :: vs, rest) := by
  cases fuel with
  | zero =>
    exact absurd hsz (by rw [jsizeItems_cons]; have := jsize_pos v; omega)
  | succ g =>
    have hwf' := wfItems_cons hwf
    have hszc := hsz
    rw [jsizeItems_cons] at hszc
    have hv : parseVal g (stringifyChars v ++ (arrItems vs false ++ ']' :: rest))
        = some (v, arrItems vs false ++ ']' :: rest) :=
      parseVal_stringify g v _ hwf'.1 (by omega) (noDigitHead_arrItems vs rest)
    rw [show arrItems (v :: vs) true = stringifyChars v ++ arrItems vs false by
      simp [arrItems], List.append_assoc]
    have step : parseItems (g + 1) (stringifyChars v ++ (arrItems vs false ++ ']' :: rest))
        = (match skipWs (arrItems vs false ++ ']' :: rest) with
           | ',' :: r2 =>
             (match parseItems g r2 with
              | some (items, r3) => some (v :: items, r3)
              | none => none)
           | ']' :: r2 => some ([v], r2)
           | _ => none) := by
      rw [parseItems, hv]
    rw [step]
    cases vs with
    | nil =>
      rw [show arrItems ([] : List JsValue) false = [] by simp [arrItems],
        List.nil_append]
      rfl
    | cons v2 vs' =>
      rw [arrItems_false (by simp), List.cons_append,
        skipWs_cons (by decide : isWsChar ',' = false)]
      have step2 : (match (',' :: (arrItems (v2 :: vs') true ++ ']' :: rest) : List Char) with
           | ',' :: r2 =>
             (match parseItems g r2 with
              | some (items, r3) => some (v :: items, r3)
              | none => none)
           | ']' :: r2 => some ([v], r2)
           | _ => none)
          = (match parseItems g (arrItems (v2 :: vs') true ++ ']' :: rest) with
             | some (items, r3) => some (v :: items, r3)
             | none => none) := rfl
      rw [step2, parseItems_stringify g v2 vs' rest hwf'.2
        (by rw [jsizeItems_cons] at hszc ⊢; omega)]
  termination_by (fuel, 1)

/-- Round-trip for a nonempty object field list rendering. -/
theorem parseFields_stringify (fuel : Nat) (k : String) (v : JsValue)
    (fl : List (String × JsValue)) (rest : List Char)
    (hwf : wfFields ((k, v) :: fl) = true)
    (hsz : jsizeFields ((k, v) :: fl) ≤ fuel) :
    parseFields fuel (objFields ((k, v) :: fl) true ++ '}' :: rest)
      = some ((k, v) :: fl, rest) := by
  cases fuel with
  | zero =>
    exact absurd hsz (by rw [jsizeFields_cons]; have := jsize_pos v; omega)
  | succ g =>
    have hwf' := wfFields_cons hwf
    have hszc := hsz
    rw [jsizeFields_cons] at hszc
    have hv0 : isSkippedField v = false := wf_not_skipped hwf'.1
    have hv : parseVal g (stringifyChars v ++ (objFields fl false ++ '}' :: rest))
        = some (v, objFields fl false ++ '}' :: rest) :=
      parseVal_stringify g v _ hwf'.1 (by omega)
        (noDigitHead_objFields fl rest hwf'.2)
    have hcX : objFields ((k, v) :: fl) true ++ '}' :: rest
        = '"' :: (escapeString k.toList
          ++ '"' :: ':' :: (stringifyChars v ++ (objFields fl false ++ '}' :: rest))) := by
      simp [objFields, hv0, List.append_assoc]
    rw [hcX]
    have step1 : parseFields (g + 1) ('"' :: (escapeString k.toList
          ++ '"' :: ':' :: (stringifyChars v ++ (objFields fl false ++ '}' :: rest))))
        = (match parseStrBody (escapeString k.toList
            ++ '"' :: ':' :: (stringifyChars v ++ (objFields fl false ++ '}' :: rest))) with
           | none => none
           | some (kcs, r2) =>
             match skipWs r2 with
             | ':' :: r3 =>
               match parseVal g r3 with
               | none => none
               | some (v', r4) =>
                 match skipWs r4 with
                 | ',' :: r5 =>
                   match parseFields g r5 with
                   | some (flds, r6) => some ((String.mk kcs, v') :: flds, r6)
                   | none => none
                 | '}' :: r5 => some ([(String.mk kcs, v')], r5)
                 | _ => none
             | _ => none) := rfl
    rw [step1, parseStrBody_escape]
    have step2 : (match (some (k.toList,
          ':' :: (stringifyChars v ++ (objFields fl false ++ '}' :: rest)))
          : Option (List Char × List Char)) with
         | none => none
         | some (kcs, r2) =>
           match skipWs r2 with
           | ':' :: r3 =>
             match parseVal g r3 with
             | none => none
             | some (v', r4) =>
               match skipWs r4 with
               | ',' :: r5 =>
                 match parseFields g r5 with
                 | some (flds, r6) => some ((String.mk kcs, v') :: flds, r6)
                 | none => none
               | '}' :: r5 => some ([(String.mk kcs, v')], r5)
               | _ => none
           | _ => none)
        = (match parseVal g (stringifyChars v ++ (objFields fl false ++ '}' :: rest)) with
           | none => none
           | some (v', r4) =>
             match skipWs r4 with
             | ',' :: r5 =>
               match parseFields g r5 with
               | some (flds, r6) => some ((k, v') :: flds, r6)
               | none => none
             | '}' :: r5 => some ([(k, v')], r5)
             | _ => none) := rfl
    rw [step2]
    have stepv : (match parseVal g (stringifyChars v ++ (objFields fl false ++ '}' :: rest)) with
         | none => none
         | some (v', r4) =>
           match skipWs r4 with
           | ',' :: r5 =>
             match parseFields g r5 with
             | some (flds, r6) => some ((k, v') :: flds, r6)
             | none => none
           | '}' :: r5 => some ([(k, v')], r5)
           | _ => none)
        = (match skipWs (objFields fl false ++ '}' :: rest) with
           | ',' :: r5 =>
             (match parseFields g r5 with
              | some (flds, r6) => some ((k, v) :: flds, r6)
              | none => none)
           | '}' :: r5 => some ([(k, v)], r5)
           | _ => none) := by
      rw [hv]
    rw [stepv]
    cases fl with
    | nil =>
      rw [show objFields ([] : List (String × JsValue)) false = [] by
        simp [objFields], List.nil_append]
      rfl
    | cons kv2 fl' =>
      obtain ⟨k2, v2⟩ := kv2
      rw [objFields_false (by simp) hwf'.2, List.cons_append,
        skipWs_cons (by decide : isWsChar ',' = false)]
      have step3 : (match (',' :: (objFields ((k2, v2) :: fl') true ++ '}' :: rest) : List Char) with
           | ',' :: r5 =>
             (match parseFields g r5 with
              | some (flds, r6) => some ((k, v) :: flds, r6)
              | none => none)
           | '}' :: r5 => some ([(k, v)], r5)
           | _ => none)
          = (match parseFields g (objFields ((k2, v2) :: fl') true ++ '}' :: rest) with
             | some (flds, r6) => some ((k, v) :: flds, r6)
             | none => none) := rfl
      rw [step3, parseFields_stringify g k2 v2 fl' rest hwf'.2
        (by rw [jsizeFields_cons] at hszc ⊢; omega)]
  termination_by (fuel, 1)
end

mutual
/-- The size measure is bounded by the encoding's length. -/
theorem jsize_le_len (v : JsValue) (hwf : wf v = true) :
    jsize v ≤ (stringifyChars v).length := by
  cases v with
  | undef => simp [wf] at hwf
  | fn => simp [wf] at hwf
  | null => simp [stringifyChars, jsize]
  | bool b => cases b <;> simp [stringifyChars, jsize]
  | num n =>
    have h1 : 1 ≤ (intChars n).length := by
      cases n with
      | ofNat m =>
        have := natChars_ne_nil m
        simp [intChars]
        exact List.length_pos.mpr this
      | negSucc m => simp [intChars]
    simp only [stringifyChars, jsize]
    omega
  | str s =>
    simp [stringifyChars, jsize]
  | arr l =>
    have h := jsizeItems_le_len l (wf_arr hwf)
    simp only [stringifyChars, jsize_arr, List.length_cons, List.length_append,
      List.length_singleton]
    omega
  | obj l =>
    have h := jsizeFields_le_len l (wf_obj hwf)
    simp only [stringifyChars, jsize_obj, List.length_cons, List.length_append,
      List.length_singleton]
    omega

/-- The element-list size measure is bounded by the rendering's length. -/
theorem jsizeItems_le_len (l : List JsValue) (hwf : wfItems l = true) :
    jsizeItems l ≤ (arrItems l true).length + 1 := by
  cases l with
  | nil => simp [jsizeItems]
  | cons v vs =>
    have hwf' := wfItems_cons hwf
    have hv := jsize_le_len v hwf'.1
    have harr : arrItems (v :: vs) true = stringifyChars v ++ arrItems vs false := by
      simp [arrItems]
    cases vs with
    | nil =>
      rw [harr, show arrItems ([] : List JsValue) false = [] by simp [arrItems]]
      simp only [jsizeItems_cons, List.append_nil]
      have h0 : jsizeItems ([] : List JsValue) = 0 := by simp [jsizeItems]
      omega
    | cons v2 vs' =>
      have hrec := jsizeItems_le_len (v2 :: vs') hwf'.2
      rw [harr, arrItems_false (by simp)]
      simp only [jsizeItems_cons, List.length_append, List.length_cons]
      rw [jsizeItems_cons] at hrec
      omega

/-- The field-list size measure is bounded by the rendering's length. -/
theorem jsizeFields_le_len (fl : List (String × JsValue)) (hwf : wfFields fl = true) :
    jsizeFields fl ≤ (objFields fl true).length + 1 := by
  cases fl with
  | nil => simp [jsizeFields]
  | cons kv fl' =>
    obtain ⟨k, v⟩ := kv
    have hwf' := wfFields_cons hwf
    have hv := jsize_le_len v hwf'.1
    have hv0 : isSkippedField v = false := wf_not_skipped hwf'.1
    have hobj : objFields ((k, v) :: fl') true
        = '"' :: (escapeString k.toList ++ ['"', ':'])
          ++ stringifyChars v ++ objFields fl' false := by
      simp [objFields, hv0]
    cases fl' with
    | nil =>
      rw [hobj, show objFields ([] : List (String × JsValue)) false = [] by
        simp [objFields]]
      simp only [jsizeFields_cons, List.append_nil, List.length_append,
        List.length_cons]
      have h0 : jsizeFields ([] : List (String × JsValue)) = 0 := by
        simp [jsizeFields]
      omega
    | cons kv2 fl'' =>
      have hrec := jsizeFields_le_len (kv2 :: fl'') hwf'.2
      rw [hobj, objFields_false (by simp) hwf'.2]
      simp only [jsizeFields_cons, List.length_append, List.length_cons]
      obtain ⟨k2, v2⟩ := kv2
      omega
end

/-- Full round-trip through the text encoding: decoding the encoding of a pure
data value recovers exactly that value.  This is the key property of the
storage text format (spec §4.2, §6). -/
theorem parseJson_stringify (v : JsValue) (hwf : wf v = true) :
    parseJson (stringify v) = some v := by
  have h := parseVal_stringify ((stringifyChars v).length + 1) v [] hwf
    (Nat.le_trans (jsize_le_len v hwf) (by omega)) rfl
  rw [List.append_nil] at h
  unfold parseJson stringify
  rw [show (String.mk (stringifyChars v)).length = (stringifyChars v).length from rfl]
  rw [show (String.mk (stringifyChars v)).toList = stringifyChars v from rfl]
  rw [h]
  rfl

/-! ### Filesystem and error model -/

/-- A JavaScript exception, as far as the library inspects one: file-system
errors carry a `code` property (for example `ENOENT`), `JSON.parse` failures
are `SyntaxError`s without a `code`, and `new Error(msg)` carries only a
message. -/
inductive JsError where
  | fsError : String → JsError
  | syntaxError : JsError
  | plainError : String → JsError
deriving DecidableEq

/-- The `code` property read by `err.code === 'ENOENT'`; `none` models
`undefined`. -/
def errCode : JsError → Option String
  | .fsError c => some c
  | _ => none

/-- The check `err.code === 'ENOENT'` used in every catch block of the
library. -/
def isENOENT (e : JsError) : Bool := errCode e == some "ENOENT"

/-- A storage path as produced by `path.join(storageDir, key + ".json")`: a
directory part and a file name.  Paths are equal exactly when both components
are. -/
structure StoragePath where
  dir : String
  file : String
deriving DecidableEq

/-- The modelled slice of the filesystem: existing directories and the
contents of existing files. -/
structure FS where
  dirs : List String
  files : List (StoragePath × String)
deriving DecidableEq

/-- Look up a file's contents. -/
def lookupFile : List (StoragePath × String) → StoragePath → Option String
  | [], _ => none
  | (q, s) :: rest, p => if q = p then some s else lookupFile rest p

/-- Create or replace a file's contents. -/
def setFile : List (StoragePath × String) → StoragePath → String →
    List (StoragePath × String)
  | [], p, s => [(p, s)]
  | (q, s0) :: rest, p, s =>
    if q = p then (q, s) :: rest else (q, s0) :: setFile rest p s

/-- Delete a file. -/
def removeFile : List (StoragePath × String) → StoragePath →
    List (StoragePath × String)
  | [], _ => []
  | (q, s) :: rest, p =>
    if q = p then removeFile rest p else (q, s) :: removeFile rest p

/-- `fs.writeFile(path, str)`: fails with `ENOENT` when the parent directory
does not exist, otherwise creates or replaces the file. -/
def writeFS (fs : FS) (p : StoragePath) (s : String) : Except JsError Unit × FS :=
  if p.dir ∈ fs.dirs then
    (Except.ok (), { fs with files := setFile fs.files p s })
  else (Except.error (.fsError "ENOENT"), fs)

/-- `fs.readFile(path)`: fails with `ENOENT` when the file is absent. -/
def readFS (fs : FS) (p : StoragePath) : Except JsError String :=
  match lookupFile fs.files p with
  | some s => Except.ok s
  | none => Except.error (.fsError "ENOENT")

/-- `fs.mkdir(dir, { recursive: true })`: ensures the directory exists and
never fails. -/
def mkdirFS (fs : FS) (d : String) : FS :=
  { fs with dirs := d :: fs.dirs }

/-- `fs.rm(path)` with no options: fails with `ENOENT` when the file is
missing. -/
def rmFS (fs : FS) (p : StoragePath) : Except JsError Unit × FS :=
  if (lookupFile fs.files p).isSome then
    (Except.ok (), { fs with files := removeFile fs.files p })
  else (Except.error (.fsError "ENOENT"), fs)

/-! ### The Cashola class -/

/-- The mutable fields of the `Cashola` class instance
(src/src/index.ts lines 11 to 13). -/
structure CasholaState where
  ignoreCashola : Bool
  storageDir : String
  keyToFileMap : List (String × StoragePath)
deriving DecidableEq

/-- The configuration record from `src/types.ts`; an absent optional field is
`none`. -/
structure Config where
  storageDir : Option String
  ignoreCasholaEnvVar : Option String
  ignoreCashola : Option Bool
deriving DecidableEq

/-- Look up a key in the registry (`key in this.keyToFileMap` /
`this.keyToFileMap[key]`). -/
def lookupKey : List (String × StoragePath) → String → Option StoragePath
  | [], _ => none
  | (k, p) :: rest, key => if k = key then some p else lookupKey rest key

/-- A character matched by the `filename-reserved-regex` package
(`<>:"/\|?*` and control characters). -/
def reservedChar (c : Char) : Bool :=
  c = '<' || c = '>' || c = ':' || c = '"' || c = '/' || c = '\\' || c = '|'
    || c = '?' || c = '*' || c.toNat < 32

/-- ASCII lower-casing, for the case-insensitive reserved-name test. -/
def asciiLower (c : Char) : Char :=
  if 65 ≤ c.toNat ∧ c.toNat ≤ 90 then Char.ofNat (c.toNat + 32) else c

/-- Windows reserved device names (`con`, `prn`, `aux`, `nul`, `comN`,
`lptN`), case-insensitively, as matched by `filename-reserved-regex`. -/
def isWindowsReserved (s : String) : Bool :=
  match s.toList.map asciiLower with
  | ['c', 'o', 'n'] => true
  | ['p', 'r', 'n'] => true
  | ['a', 'u', 'x'] => true
  | ['n', 'u', 'l'] => true
  | ['c', 'o', 'm', d] => isDigitCh d
  | ['l', 'p', 't', d] => isDigitCh d
  | _ => false

/-- Model of the `valid-filename` npm package used by `checkInput`: nonempty,
at most 255 characters, no reserved characters, not a Windows reserved name,
and not `.` or `..`. -/
def isValidFilename (s : String) : Bool :=
  !(s = "") && s.toList.length ≤ 255 && !(s.toList.any reservedChar)
    && !(isWindowsReserved s) && !(s = ".") && !(s = "..")

namespace Cashola

/-- `createFilePath`: `path.join(this.storageDir, key + ".json")`. -/
def createFilePath (st : CasholaState) (key : String) : StoragePath :=
  ⟨st.storageDir, key ++ ".json"⟩

/-- JavaScript truthiness of an optional string field
(`if (config.storageDir)`): present and nonempty. -/
def truthyStr : Option String → Bool
  | some s => !(s = "")
  | none => false

/-- The `configure` method.  `env` is the process environment
(`process.env`). -/
def configure (st : CasholaState) (env : String → Option String)
    (c : Config) : CasholaState :=
  let st1 :=
    if truthyStr c.storageDir then { st with storageDir := c.storageDir.getD "" }
    else st
  let st2 :=
    if truthyStr c.ignoreCasholaEnvVar then
      { st1 with ignoreCashola := env (c.ignoreCasholaEnvVar.getD "") == some "true" }
    else st1
  if c.ignoreCashola == some true then { st2 with ignoreCashola := true } else st2

/-- The state of the singleton `cashola` instance at module load time. -/
def initialState (env : String → Option String) : CasholaState :=
  ⟨env "IGNORE_CASHOLA" == some "true", ".cashola", []⟩

/-- Registry update `this.keyToFileMap[key] = this.createFilePath(key)` for a
fresh key (JavaScript objects keep string keys in insertion order, so a new
key is appended). -/
def registerKey (st : CasholaState) (key : String) : CasholaState :=
  { st with keyToFileMap := st.keyToFileMap ++ [(key, createFilePath st key)] }

/-- The private `checkInput` method: reject non-objects, duplicate keys and
invalid file names (thrown as errors); then record the key in the registry;
finally report `false` when the package is disabled, `true` otherwise.  Note
the registry entry is created before the ignore check. -/
def checkInput (st : CasholaState) (key : String) (obj : JsValue) :
    Except JsError Bool × CasholaState :=
  if !(typeof obj == "object") then
    (Except.error (.plainError
      ("Typeof object is '" ++ typeof obj ++ "', but must be 'object'.")), st)
  else if (lookupKey st.keyToFileMap key).isSome then
    (Except.error (.plainError ("'" ++ key ++ "' already being remembered.")), st)
  else if !(isValidFilename key) then
    (Except.error (.plainError
      ("Invalid key: '" ++ key ++ "'. Must create a valid filename.")), st)
  else
    let st2 := registerKey st key
    if st2.ignoreCashola then (Except.ok false, st2) else (Except.ok true, st2)

/-- The private `checkSameType` method: both values must be arrays or both
non-arrays, otherwise a shape-mismatch error is thrown. -/
def checkSameType (a b : JsValue) (key : String) : Except JsError Unit :=
  if !(isArray a && isArray b) && !(!isArray a && !isArray b) then
    let type := if isArray b then "array" else "object"
    Except.error (.plainError ("Key '" ++ key ++ "' already holding an " ++ type
      ++ ". Either clear storage or continue to use an " ++ type ++ "."))
  else Except.ok ()

/-- The private `save`/`saveSync` methods: `JSON.stringify` the value and
write it to the key's recorded path; on an `ENOENT` failure create the
storage directory (from the current configuration) and retry once, letting a
retry failure propagate; any non-`ENOENT` write error is swallowed because
the catch block only handles `ENOENT`. -/
def save (st : CasholaState) (fs : FS) (key : String) (obj : JsValue) :
    Except JsError Unit × FS :=
  let str := stringify obj
  let p := (lookupKey st.keyToFileMap key).getD ⟨"", ""⟩
  match writeFS fs p str with
  | (Except.ok _, fs1) => (Except.ok (), fs1)
  | (Except.error e, fs1) =>
    if isENOENT e then
      let fs2 := mkdirFS fs1 st.storageDir
      writeFS fs2 p str
    else (Except.ok (), fs1)

/-- The private `load`/`loadSync` methods: read the key's recorded path and
`JSON.parse` the text. -/
def load (st : CasholaState) (fs : FS) (key : String) : Except JsError JsValue :=
  match readFS fs ((lookupKey st.keyToFileMap key).getD ⟨"", ""⟩) with
  | Except.error e => Except.error e
  | Except.ok str =>
    match parseJson str with
    | some v => Except.ok v
    | none => Except.error .syntaxError

/-- The private `safeLoad`/`safeLoadSync` methods: load, then run the shape
guard against the requested value. -/
def safeLoad (st : CasholaState) (fs : FS) (key : String) (obj : JsValue) :
    Except JsError JsValue :=
  match load st fs key with
  | Except.error e => Except.error e
  | Except.ok tmp =>
    match checkSameType obj tmp key with
    | Except.error e => Except.error e
    | Except.ok _ => Except.ok tmp

/-- What `remember` hands back to its caller: under ignore-state the raw
initial value (no wrapper), otherwise a `Proxy` over the resolved value whose
set trap is bound to `key`. -/
inductive RememberResult where
  | raw : JsValue → RememberResult
  | proxied : JsValue → String → RememberResult

/-- Result of a `remember` call: the returned value or thrown error, together
with the final registry state and filesystem (JavaScript exceptions do not
roll back completed assignments or writes). -/
structure RememberOut where
  result : Except JsError RememberResult
  st : CasholaState
  fs : FS

/-- Legal targets of the `Proxy` constructor: JavaScript objects, which among
`JsValue`s are plain objects, arrays and functions — not `null` (despite its
`typeof` being `"object"`) and not primitives. -/
def isProxyTarget : JsValue → Bool
  | .obj _ => true
  | .arr _ => true
  | .fn => true
  | _ => false

/-- `new Proxy(v, handler)`: returns the wrapper when `v` is an object, and
throws a TypeError otherwise (e.g. when `v` is `null` or a primitive decoded
from storage). -/
def newProxy (v : JsValue) (key : String) : Except JsError RememberResult :=
  if isProxyTarget v then Except.ok (.proxied v key)
  else Except.error (.plainError
    "Cannot create proxy with a non-object as target or handler")

/-- The public `remember` method (`rememberSync`, `rememberArray` and
`rememberArraySync` have the identical body; the async/sync distinction and
the `{}`/`[]` default initial values live at the call sites of this model).
The try/catch around `safeLoad` handles only `err.code === 'ENOENT'` (by
saving the initial value); every other load error — shape mismatch, decode
failure, read failure — is silently swallowed and the method proceeds to wrap
the resolved value in `new Proxy`, which itself throws a TypeError when that
value is not an object — after the registry and storage side effects. -/
def remember (st : CasholaState) (fs : FS) (key : String) (obj : JsValue) :
    RememberOut :=
  match checkInput st key obj with
  | (Except.error e, st1) => ⟨Except.error e, st1, fs⟩
  | (Except.ok false, st1) => ⟨Except.ok (.raw obj), st1, fs⟩
  | (Except.ok true, st1) =>
    match safeLoad st1 fs key obj with
    | Except.ok tmp => ⟨newProxy tmp key, st1, fs⟩
    | Except.error e =>
      if isENOENT e then
        match save st1 fs key obj with
        | (Except.ok _, fs1) => ⟨newProxy obj key, st1, fs1⟩
        | (Except.error e2, fs1) => ⟨Except.error e2, st1, fs1⟩
      else ⟨newProxy obj key, st1, fs⟩

/-- `rememberSync` shares `remember`'s body (the only difference in the
source is blocking versus suspending I/O, which the model does not
distinguish). -/
def rememberSync : CasholaState → FS → String → JsValue → RememberOut :=
  remember

/-- The set trap of the proxy handler returned by `getHandlerSync`: apply the
write to the base value via `Reflect.set`; if the base value rejects it,
report `false` without saving; otherwise save the entire current value and
report `true`.  `reflectSet` models `Reflect.set` on the base value (its
outcome depends on properties of the base object that `JsValue` does not
track, such as frozenness); a save error propagates to the mutator in this
blocking mode. -/
def handlerSetSync (reflectSet : JsValue → String → JsValue → Option JsValue)
    (st : CasholaState) (fs : FS) (key : String)
    (obj : JsValue) (prop : String) (value : JsValue) :
    Except JsError (Bool × JsValue) × FS :=
  match reflectSet obj prop value with
  | none => (Except.ok (false, obj), fs)
  | some obj2 =>
    match save st fs key obj2 with
    | (Except.ok _, fs1) => (Except.ok (true, obj2), fs1)
    | (Except.error e, fs1) => (Except.error e, fs1)

/-- The set trap of the handler returned by `getHandler` (suspending mode):
identical except the save is fire-and-forget (`void this.save(...)`), so its
outcome never reaches the mutator. -/
def handlerSetAsync (reflectSet : JsValue → String → JsValue → Option JsValue)
    (st : CasholaState) (fs : FS) (key : String)
    (obj : JsValue) (prop : String) (value : JsValue) :
    Except JsError (Bool × JsValue) × FS :=
  match reflectSet obj prop value with
  | none => (Except.ok (false, obj), fs)
  | some obj2 => (Except.ok (true, obj2), (save st fs key obj2).2)

/-- The `clearSync` method: remove `<storageDir>/<key>.json`, with the path
computed from the current configuration, not from the registry; `rmSync`
throws `ENOENT` when the file is missing. -/
def clearSync (st : CasholaState) (fs : FS) (key : String) :
    Except JsError Unit × FS :=
  rmFS fs (createFilePath st key)

/-- The `clear` method; identical to `clearSync` in this model. -/
def clear (st : CasholaState) (fs : FS) (key : String) :
    Except JsError Unit × FS :=
  rmFS fs (createFilePath st key)

/-- The `list` method: registered keys in insertion order. -/
def list (st : CasholaState) : List String := st.keyToFileMap.map Prod.fst

end Cashola

/-! ### Helper lemmas about the Cashola model -/

/-- An object or array value, the kinds the binding API is meant for. -/
def isObjOrArrKind : JsValue → Bool
  | .obj _ => true
  | .arr _ => true
  | _ => false

/-- Object/array kinds have `typeof` `"object"`. -/
theorem typeof_of_kind {v : JsValue} (h : isObjOrArrKind v = true) :
    typeof v = "object" := by
  cases v <;> simp [isObjOrArrKind] at h <;> rfl

/-- Object/array kinds are legal `Proxy` targets. -/
theorem isProxyTarget_of_kind {v : JsValue} (h : isObjOrArrKind v = true) :
    Cashola.isProxyTarget v = true := by
  cases v <;> simp [isObjOrArrKind] at h <;> rfl

/-- On a legal target the `Proxy` constructor returns the wrapper. -/
theorem newProxy_ok {v : JsValue} (key : String)
    (h : Cashola.isProxyTarget v = true) :
    Cashola.newProxy v key = Except.ok (.proxied v key) := by
  simp [Cashola.newProxy, h]

/-- Appending a fresh binding makes it visible. -/
theorem lookupKey_append_self (l : List (String × StoragePath)) (key : String)
    (p : StoragePath) (h : lookupKey l key = none) :
    lookupKey (l ++ [(key, p)]) key = some p := by
  induction l with
  | nil => simp [lookupKey]
  | cons kv rest ih =>
    obtain ⟨k, q⟩ := kv
    by_cases hk : k = key
    · rw [lookupKey, if_pos hk] at h
      cases h
    · rw [List.cons_append, lookupKey, if_neg hk] at *
      exact ih h

/-- The path recorded by `registerKey` for the fresh key. -/
theorem lookupKey_registerKey (st : CasholaState) (key : String)
    (h : lookupKey st.keyToFileMap key = none) :
    lookupKey (Cashola.registerKey st key).keyToFileMap key
      = some (Cashola.createFilePath st key) :=
  lookupKey_append_self st.keyToFileMap key _ h

/-- `registerKey` changes no configuration field. -/
theorem registerKey_fields (st : CasholaState) (key : String) :
    (Cashola.registerKey st key).ignoreCashola = st.ignoreCashola
    ∧ (Cashola.registerKey st key).storageDir = st.storageDir := ⟨rfl, rfl⟩

/-- `checkInput` on a fresh valid key with the package enabled. -/
theorem checkInput_active {st : CasholaState} {key : String} {obj : JsValue}
    (hty : typeof obj = "object")
    (hdup : lookupKey st.keyToFileMap key = none)
    (hval : isValidFilename key = true)
    (hig : st.ignoreCashola = false) :
    Cashola.checkInput st key obj = (Except.ok true, Cashola.registerKey st key) := by
  unfold Cashola.checkInput
  rw [hty, hdup, hval]
  simp [Cashola.registerKey, hig]

/-- `checkInput` on a fresh valid key with the package disabled. -/
theorem checkInput_ignored {st : CasholaState} {key : String} {obj : JsValue}
    (hty : typeof obj = "object")
    (hdup : lookupKey st.keyToFileMap key = none)
    (hval : isValidFilename key = true)
    (hig : st.ignoreCashola = true) :
    Cashola.checkInput st key obj = (Except.ok false, Cashola.registerKey st key) := by
  unfold Cashola.checkInput
  rw [hty, hdup, hval]
  simp [Cashola.registerKey, hig]

/-- The shape guard passes two values of the same shape. -/
theorem checkSameType_ok {a b : JsValue} {key : String}
    (h : isArray a = isArray b) :
    Cashola.checkSameType a b key = Except.ok () := by
  unfold Cashola.checkSameType
  cases hb : isArray b <;> rw [h, hb] <;> simp

/-- Writing a file makes its contents visible. -/
theorem lookupFile_setFile_self (files : List (StoragePath × String))
    (p : StoragePath) (s : String) :
    lookupFile (setFile files p s) p = some s := by
  induction files with
  | nil => simp [setFile, lookupFile]
  | cons qs rest ih =>
    obtain ⟨q, s0⟩ := qs
    by_cases hq : q = p
    · rw [setFile, if_pos hq, lookupFile, if_pos hq]
    · rw [setFile, if_neg hq, lookupFile, if_neg hq]
      exact ih

/-- Writing a file leaves every other file unchanged. -/
theorem lookupFile_setFile_other (files : List (StoragePath × String))
    (p q : StoragePath) (s : String) (h : q ≠ p) :
    lookupFile (setFile files p s) q = lookupFile files q := by
  induction files with
  | nil => simp [setFile, lookupFile, Ne.symm h]
  | cons rs rest ih =>
    obtain ⟨r, s0⟩ := rs
    by_cases hr : r = p
    · subst hr
      rw [setFile, if_pos rfl, lookupFile, if_neg (fun he => h he.symm),
        lookupFile, if_neg (fun he => h he.symm)]
    · rw [setFile, if_neg hr]
      by_cases hrq : r = q
      · rw [lookupFile, if_pos hrq, lookupFile, if_pos hrq]
      · rw [lookupFile, if_neg hrq, lookupFile, if_neg hrq]
        exact ih

/-- Removing a file removes exactly it. -/
theorem lookupFile_removeFile (files : List (StoragePath × String))
    (p q : StoragePath) :
    lookupFile (removeFile files p) q
      = if q = p then none else lookupFile files q := by
  induction files with
  | nil => simp [removeFile, lookupFile]
  | cons rs rest ih =>
    obtain ⟨r, s0⟩ := rs
    by_cases hr : r = p
    · subst hr
      rw [removeFile, if_pos rfl, ih]
      by_cases hq : q = r
      · rw [if_pos hq, if_pos hq]
      · rw [if_neg hq, if_neg hq, lookupFile, if_neg (fun he => hq he.symm)]
    · rw [removeFile, if_neg hr]
      by_cases hrq : r = q
      · subst hrq
        rw [lookupFile, if_pos rfl, if_neg hr, lookupFile, if_pos rfl]
      · rw [lookupFile, if_neg hrq, ih]
        by_cases hq : q = p
        · rw [if_pos hq, if_pos hq]
        · rw [if_neg hq, if_neg hq, lookupFile, if_neg hrq]

/-- The ENOENT test on a file-system ENOENT error. -/
theorem isENOENT_enoent : isENOENT (.fsError "ENOENT") = true := rfl

/-- Engine lemma: a bind of a fresh valid key whose storage already holds
text decoding to a value of the requested shape registers the key, leaves the
filesystem unchanged, and hands the stored value to the `Proxy` constructor
(which wraps it if it is an object and throws a TypeError otherwise). -/
theorem remember_loads_stored {st : CasholaState} {fs : FS} {key : String}
    {obj v : JsValue} {s : String}
    (hty : typeof obj = "object")
    (hdup : lookupKey st.keyToFileMap key = none)
    (hval : isValidFilename key = true)
    (hig : st.ignoreCashola = false)
    (hfile : lookupFile fs.files (Cashola.createFilePath st key) = some s)
    (hparse : parseJson s = some v)
    (hshape : isArray obj = isArray v) :
    Cashola.remember st fs key obj
      = ⟨Cashola.newProxy v key, Cashola.registerKey st key, fs⟩ := by
  have hsl : Cashola.safeLoad (Cashola.registerKey st key) fs key obj
      = Except.ok v := by
    simp only [Cashola.safeLoad, Cashola.load, lookupKey_registerKey st key hdup,
      Option.getD_some, readFS, hfile, hparse, checkSameType_ok hshape]
  simp only [Cashola.remember, checkInput_active hty hdup hval hig, hsl]

/-- Engine lemma: a bind of a fresh valid key with no stored file persists
the initial value at the key's path and hands the initial value to the
`Proxy` constructor; the directory set depends on whether the storage
directory existed. -/
theorem remember_saves_initial {st : CasholaState} {fs : FS} {key : String}
    {obj : JsValue}
    (hty : typeof obj = "object")
    (hdup : lookupKey st.keyToFileMap key = none)
    (hval : isValidFilename key = true)
    (hig : st.ignoreCashola = false)
    (hnofile : lookupFile fs.files (Cashola.createFilePath st key) = none) :
    ∃ ds, Cashola.remember st fs key obj
      = ⟨Cashola.newProxy obj key, Cashola.registerKey st key,
         ⟨ds, setFile fs.files (Cashola.createFilePath st key) (stringify obj)⟩⟩ := by
  have hsl : Cashola.safeLoad (Cashola.registerKey st key) fs key obj
      = Except.error (.fsError "ENOENT") := by
    simp only [Cashola.safeLoad, Cashola.load, lookupKey_registerKey st key hdup,
      Option.getD_some, readFS, hnofile]
  by_cases hdir : (Cashola.createFilePath st key).dir ∈ fs.dirs
  · refine ⟨fs.dirs, ?_⟩
    have hsave : Cashola.save (Cashola.registerKey st key) fs key obj
        = (Except.ok (), ⟨fs.dirs,
            setFile fs.files (Cashola.createFilePath st key) (stringify obj)⟩) := by
      simp only [Cashola.save, lookupKey_registerKey st key hdup, Option.getD_some,
        writeFS, if_pos hdir]
    simp only [Cashola.remember, checkInput_active hty hdup hval hig, hsl,
      isENOENT_enoent, if_true, ite_true, hsave]
  · refine ⟨st.storageDir :: fs.dirs, ?_⟩
    have hsave : Cashola.save (Cashola.registerKey st key) fs key obj
        = (Except.ok (), ⟨st.storageDir :: fs.dirs,
            setFile fs.files (Cashola.createFilePath st key) (stringify obj)⟩) := by
      simp only [Cashola.save, lookupKey_registerKey st key hdup, Option.getD_some,
        writeFS, if_neg hdir, isENOENT_enoent, if_true, ite_true, mkdirFS]
      have hmem : (Cashola.createFilePath st key).dir
          ∈ (Cashola.registerKey st key).storageDir :: fs.dirs := by
        rw [show (Cashola.registerKey st key).storageDir = st.storageDir from rfl]
        rw [show (Cashola.createFilePath st key).dir = st.storageDir from rfl]
        exact List.mem_cons_self _ _
      rw [if_pos hmem]
      rfl
    simp only [Cashola.remember, checkInput_active hty hdup hval hig, hsl,
      isENOENT_enoent, if_true, ite_true, hsave]

/-! ### Claim theorems -/

/-- C1: the claim fails on the code.  With `list1.json` already holding `[]`
and a fresh registry, binding `"list1"` with a mapping initial value does NOT
fail: `checkSameType` throws the shape-mismatch error, but the catch in
`remember` handles only `err.code === 'ENOENT'` and silently swallows
everything else, so the call returns a live proxy over the initial mapping
value and keeps the key registered.  Only the last part of the claim holds:
the stored file is left unchanged. -/
theorem claim_C1_shape_mismatch_swallowed :
    Cashola.remember ⟨false, ".cashola", []⟩
        ⟨[".cashola"], [(⟨".cashola", "list1.json"⟩, "[]")]⟩ "list1" (JsValue.obj [])
      = ⟨Except.ok (.proxied (JsValue.obj []) "list1"),
         ⟨false, ".cashola", [("list1", ⟨".cashola", "list1.json"⟩)]⟩,
         ⟨[".cashola"], [(⟨".cashola", "list1.json"⟩, "[]")]⟩⟩ := rfl

/-- C4: the claim fails on the code.  With `counter.json` holding the
malformed text `not json`, the `JSON.parse` failure inside the initial load
is caught by the same catch that checks `err.code === 'ENOENT'` and is
silently swallowed: the bind does not propagate the decode error, it returns
a proxy over the initial value and leaves the malformed file in place. -/
theorem claim_C4_decode_error_swallowed :
    Cashola.remember ⟨false, ".cashola", []⟩
        ⟨[".cashola"], [(⟨".cashola", "counter.json"⟩, "not json")]⟩ "counter"
        (JsValue.obj [])
      = ⟨Except.ok (.proxied (JsValue.obj []) "counter"),
         ⟨false, ".cashola", [("counter", ⟨".cashola", "counter.json"⟩)]⟩,
         ⟨[".cashola"], [(⟨".cashola", "counter.json"⟩, "not json")]⟩⟩ := rfl

/-- C3 counterexample: binding under ignore-state DOES create a registry
entry, because `checkInput` records the key before testing the ignore flag;
this refutes the claim's "creates no registry entry".  The call still returns
the raw initial value, unwrapped, with the filesystem untouched. -/
theorem claim_C3_counterexample :
    Cashola.remember ⟨true, ".cashola", []⟩ ⟨[], []⟩ "k" (JsValue.obj [])
      = ⟨Except.ok (.raw (JsValue.obj [])),
         ⟨true, ".cashola", [("k", ⟨".cashola", "k.json"⟩)]⟩, ⟨[], []⟩⟩
    ∧ (Cashola.remember ⟨true, ".cashola", []⟩ ⟨[], []⟩ "k"
        (JsValue.obj [])).st.keyToFileMap ≠ [] :=
  ⟨rfl, by decide⟩

/-- C3 (amended): under ignore-state, binding a fresh object-kind value with
a valid key returns exactly the initial value, unchanged and unwrapped, and
performs no storage interaction — but the key IS recorded in the registry;
an invalid key still fails even when ignoring. -/
theorem claim_C3_ignore_state (st : CasholaState) (fs : FS) (key : String)
    (obj : JsValue)
    (hig : st.ignoreCashola = true)
    (hty : typeof obj = "object")
    (hdup : lookupKey st.keyToFileMap key = none) :
    (isValidFilename key = true →
      Cashola.remember st fs key obj
        = ⟨Except.ok (.raw obj), Cashola.registerKey st key, fs⟩)
    ∧ (isValidFilename key = false →
      Cashola.remember st fs key obj
        = ⟨Except.error (.plainError
            ("Invalid key: '" ++ key ++ "'. Must create a valid filename.")),
           st, fs⟩) := by
  constructor
  · intro hval
    simp only [Cashola.remember, checkInput_ignored hty hdup hval hig]
  · intro hval
    have hci : Cashola.checkInput st key obj
        = (Except.error (.plainError
            ("Invalid key: '" ++ key ++ "'. Must create a valid filename.")), st) := by
      unfold Cashola.checkInput
      rw [hty, hdup, hval]
      simp
    simp only [Cashola.remember, hci]

/-- C3 witness: a concrete ignored bind of a valid key. -/
theorem claim_C3_witness :
    (⟨true, ".cashola", []⟩ : CasholaState).ignoreCashola = true
    ∧ typeof (JsValue.obj []) = "object"
    ∧ ((isValidFilename "k" = true →
        Cashola.remember ⟨true, ".cashola", []⟩ ⟨[], []⟩ "k" (JsValue.obj [])
          = ⟨Except.ok (.raw (JsValue.obj [])),
             Cashola.registerKey ⟨true, ".cashola", []⟩ "k", ⟨[], []⟩⟩)
      ∧ (isValidFilename "k" = false →
        Cashola.remember ⟨true, ".cashola", []⟩ ⟨[], []⟩ "k" (JsValue.obj [])
          = ⟨Except.error (.plainError
              ("Invalid key: '" ++ "k" ++ "'. Must create a valid filename.")),
             ⟨true, ".cashola", []⟩, ⟨[], []⟩⟩)) :=
  ⟨rfl, rfl, claim_C3_ignore_state _ _ _ _ rfl rfl rfl⟩

/-- C5: binding a fresh valid key with an object- or array-kind pure data
value when no stored file exists persists the value's encoding at the key's
storage location, returns a proxy over the value, and a subsequent bind of
the same key under a fresh registry (same storage directory, same shape of
initial value) returns exactly the original value — the encode/decode
round-trip. -/
theorem claim_C5_first_bind_roundtrip (st st2 : CasholaState) (fs : FS)
    (key : String) (v obj2 : JsValue)
    (hkind : isObjOrArrKind v = true)
    (hwf : wf v = true)
    (hdup : lookupKey st.keyToFileMap key = none)
    (hval : isValidFilename key = true)
    (hig : st.ignoreCashola = false)
    (hnofile : lookupFile fs.files (Cashola.createFilePath st key) = none)
    (hdir2 : st2.storageDir = st.storageDir)
    (hig2 : st2.ignoreCashola = false)
    (hdup2 : lookupKey st2.keyToFileMap key = none)
    (hty2 : typeof obj2 = "object")
    (hshape : isArray obj2 = isArray v) :
    (Cashola.remember st fs key v).result = Except.ok (.proxied v key)
    ∧ lookupFile (Cashola.remember st fs key v).fs.files
        (Cashola.createFilePath st key) = some (stringify v)
    ∧ (Cashola.remember st2 (Cashola.remember st fs key v).fs key obj2).result
        = Except.ok (.proxied v key) := by
  obtain ⟨ds, h1⟩ := remember_saves_initial (typeof_of_kind hkind) hdup hval hig hnofile
  refine ⟨?_, ?_, ?_⟩
  · rw [h1]
    exact newProxy_ok key (isProxyTarget_of_kind hkind)
  · rw [h1]
    exact lookupFile_setFile_self _ _ _
  · have hfile2 : lookupFile (Cashola.remember st fs key v).fs.files
        (Cashola.createFilePath st2 key) = some (stringify v) := by
      rw [h1]
      rw [show Cashola.createFilePath st2 key = Cashola.createFilePath st key from by
        unfold Cashola.createFilePath
        rw [hdir2]]
      exact lookupFile_setFile_self _ _ _
    have h2 := remember_loads_stored hty2 hdup2 hval hig2 hfile2
      (parseJson_stringify v hwf) hshape
    rw [h2]
    exact newProxy_ok key (isProxyTarget_of_kind hkind)

/-- C5 witness: concrete scenario A — `bind("counter", {count: 0})` with no
existing file creates `counter.json` containing `{"count":0}`, and a rebind
under a fresh registry returns the same value. -/
theorem claim_C5_witness :
    wf (JsValue.obj [("count", JsValue.num 0)]) = true
    ∧ stringify (JsValue.obj [("count", JsValue.num 0)]) = "\x7b\"count\":0\x7d"
    ∧ ((Cashola.remember ⟨false, ".cashola", []⟩ ⟨[], []⟩ "counter"
          (JsValue.obj [("count", JsValue.num 0)])).result
        = Except.ok (.proxied (JsValue.obj [("count", JsValue.num 0)]) "counter")
      ∧ lookupFile (Cashola.remember ⟨false, ".cashola", []⟩ ⟨[], []⟩ "counter"
          (JsValue.obj [("count", JsValue.num 0)])).fs.files
          (Cashola.createFilePath ⟨false, ".cashola", []⟩ "counter")
        = some (stringify (JsValue.obj [("count", JsValue.num 0)]))
      ∧ (Cashola.remember ⟨false, ".cashola", []⟩
          (Cashola.remember ⟨false, ".cashola", []⟩ ⟨[], []⟩ "counter"
            (JsValue.obj [("count", JsValue.num 0)])).fs "counter"
          (JsValue.obj [])).result
        = Except.ok (.proxied (JsValue.obj [("count", JsValue.num 0)]) "counter")) :=
  ⟨by simp [wf, wfFields], by simp [stringify, stringifyChars, objFields,
      escapeString, escapeChar, intChars, natChars, natCharsAux, digitCh]; rfl,
    claim_C5_first_bind_roundtrip _ _ _ _ _ _ (by rfl) (by simp [wf, wfFields])
      rfl rfl rfl rfl rfl rfl rfl rfl rfl⟩

/-- C6 counterexample: a first bind of key `k` with a string initial value
fails with the TypeKindError and registers nothing, so a second bind of the
same key in the same registry lifetime SUCCEEDS — refuting "binding it a
second time always fails with DuplicateKeyError regardless of whether the
first bind succeeded". -/
theorem claim_C6_counterexample :
    (Cashola.remember ⟨false, ".cashola", []⟩ ⟨[], []⟩ "k" (JsValue.str "x")).result
      = Except.error (.plainError "Typeof object is 'string', but must be 'object'.")
    ∧ (Cashola.remember ⟨false, ".cashola", []⟩ ⟨[], []⟩ "k" (JsValue.str "x")).st
      = ⟨false, ".cashola", []⟩
    ∧ (Cashola.remember ⟨false, ".cashola", []⟩ ⟨[], []⟩ "k" (JsValue.obj [])).result
      = Except.ok (.proxied (JsValue.obj []) "k") :=
  ⟨rfl, rfl, rfl⟩

/-- C6 (amended): for every key that is registered — which happens exactly
when an earlier bind passed input validation, whether or not that bind then
succeeded — a second bind with an object-kind initial value always fails with
the DuplicateKeyError, regardless of the filesystem state and of the ignore
flag, and changes nothing. -/
theorem claim_C6_duplicate_key (st : CasholaState) (fs : FS) (key : String)
    (obj : JsValue) (p : StoragePath)
    (hreg : lookupKey st.keyToFileMap key = some p)
    (hty : typeof obj = "object") :
    Cashola.remember st fs key obj
      = ⟨Except.error (.plainError ("'" ++ key ++ "' already being remembered.")),
         st, fs⟩ := by
  have hci : Cashola.checkInput st key obj
      = (Except.error (.plainError ("'" ++ key ++ "' already being remembered.")), st) := by
    unfold Cashola.checkInput
    rw [hty, hreg]
    simp
  simp only [Cashola.remember, hci]

/-- C6 witness: a registered key is rejected even with ignore-state active
and no storage file present. -/
theorem claim_C6_witness :
    lookupKey [("k", (⟨".cashola", "k.json"⟩ : StoragePath))] "k"
      = some ⟨".cashola", "k.json"⟩
    ∧ Cashola.remember ⟨true, ".cashola", [("k", ⟨".cashola", "k.json"⟩)]⟩ ⟨[], []⟩
        "k" (JsValue.obj [])
      = ⟨Except.error (.plainError ("'" ++ "k" ++ "' already being remembered.")),
         ⟨true, ".cashola", [("k", ⟨".cashola", "k.json"⟩)]⟩, ⟨[], []⟩⟩ :=
  ⟨rfl, claim_C6_duplicate_key _ _ _ _ _ rfl rfl⟩

/-- C7: the proxy set trap first applies the write to the base value and only
then persists the entire current value to the key's recorded location (shown
for the blocking and the fire-and-forget handler); when the base value
rejects the mutation, no persistence write happens and the trap reports
failure through the trap's boolean result, the same channel the base value
would use. -/
theorem claim_C7_wrapper_set
    (reflectSet : JsValue → String → JsValue → Option JsValue)
    (st : CasholaState) (fs : FS) (key : String) (p : StoragePath)
    (obj prop value : _)
    (hreg : lookupKey st.keyToFileMap key = some p)
    (hdir : p.dir ∈ fs.dirs) :
    (∀ obj2, reflectSet obj prop value = some obj2 →
      Cashola.handlerSetSync reflectSet st fs key obj prop value
        = (Except.ok (true, obj2),
           { fs with files := setFile fs.files p (stringify obj2) })
      ∧ Cashola.handlerSetAsync reflectSet st fs key obj prop value
        = (Except.ok (true, obj2),
           { fs with files := setFile fs.files p (stringify obj2) }))
    ∧ (reflectSet obj prop value = none →
      Cashola.handlerSetSync reflectSet st fs key obj prop value
        = (Except.ok (false, obj), fs)
      ∧ Cashola.handlerSetAsync reflectSet st fs key obj prop value
        = (Except.ok (false, obj), fs)) := by
  have hsave : ∀ obj2, Cashola.save st fs key obj2
      = (Except.ok (), { fs with files := setFile fs.files p (stringify obj2) }) := by
    intro obj2
    simp only [Cashola.save, hreg, Option.getD_some, writeFS, if_pos hdir]
  constructor
  · intro obj2 hset
    constructor
    · simp only [Cashola.handlerSetSync, hset, hsave obj2]
    · simp only [Cashola.handlerSetAsync, hset, hsave obj2]
  · intro hset
    constructor
    · simp only [Cashola.handlerSetSync, hset]
    · simp only [Cashola.handlerSetAsync, hset]

/-- C7 witness: one accepted and one rejected mutation at concrete inputs. -/
theorem claim_C7_witness :
    lookupKey [("k", (⟨".cashola", "k.json"⟩ : StoragePath))] "k"
      = some ⟨".cashola", "k.json"⟩
    ∧ Cashola.handlerSetSync (fun _ _ _ => some (JsValue.obj [("a", JsValue.num 1)]))
        ⟨false, ".cashola", [("k", ⟨".cashola", "k.json"⟩)]⟩ ⟨[".cashola"], []⟩
        "k" (JsValue.obj []) "a" (JsValue.num 1)
      = (Except.ok (true, JsValue.obj [("a", JsValue.num 1)]),
         { dirs := [".cashola"],
           files := setFile [] ⟨".cashola", "k.json"⟩
             (stringify (JsValue.obj [("a", JsValue.num 1)])) })
    ∧ Cashola.handlerSetSync (fun _ _ _ => none)
        ⟨false, ".cashola", [("k", ⟨".cashola", "k.json"⟩)]⟩ ⟨[".cashola"], []⟩
        "k" (JsValue.obj []) "a" (JsValue.num 1)
      = (Except.ok (false, JsValue.obj []), ⟨[".cashola"], []⟩) :=
  ⟨rfl,
    ((claim_C7_wrapper_set (fun _ _ _ => some (JsValue.obj [("a", JsValue.num 1)]))
      ⟨false, ".cashola", [("k", ⟨".cashola", "k.json"⟩)]⟩ ⟨[".cashola"], []⟩
      "k" ⟨".cashola", "k.json"⟩ (JsValue.obj []) "a" (JsValue.num 1)
      rfl (by decide)).1 (JsValue.obj [("a", JsValue.num 1)]) rfl).1,
    ((claim_C7_wrapper_set (fun _ _ _ => none)
      ⟨false, ".cashola", [("k", ⟨".cashola", "k.json"⟩)]⟩ ⟨[".cashola"], []⟩
      "k" ⟨".cashola", "k.json"⟩ (JsValue.obj []) "a" (JsValue.num 1)
      rfl (by decide)).2 rfl).1⟩

/-- C8 counterexample: a `null` initial value is NOT rejected by the type
check — JavaScript's `typeof null` is `"object"` — so the key is registered
and `"null"` is persisted to storage; the bind then fails anyway, but with
the TypeError thrown by `new Proxy(null, ...)` (null is not a legal proxy
target), a different error raised only AFTER those side effects.  This
refutes both the claimed error identity and the claimed absence of side
effects for `null`. -/
theorem claim_C8_counterexample :
    (Cashola.remember ⟨false, ".cashola", []⟩ ⟨[], []⟩ "nullkey" JsValue.null).result
      = Except.error (.plainError
          "Cannot create proxy with a non-object as target or handler")
    ∧ (Cashola.remember ⟨false, ".cashola", []⟩ ⟨[], []⟩ "nullkey" JsValue.null).st
      = ⟨false, ".cashola", [("nullkey", ⟨".cashola", "nullkey.json"⟩)]⟩
    ∧ lookupFile (Cashola.remember ⟨false, ".cashola", []⟩ ⟨[], []⟩ "nullkey"
        JsValue.null).fs.files ⟨".cashola", "nullkey.json"⟩
      = some (stringify JsValue.null)
    ∧ stringify JsValue.null = "null" :=
  ⟨rfl, rfl, rfl, by simp [stringify, stringifyChars]⟩

/-- C8 (amended): every initial value whose JavaScript `typeof` is not
`"object"` — strings, numbers, booleans, `undefined`, functions — is rejected
with the TypeKindError before any registry or storage side effect (state and
filesystem are returned unchanged).  `null`, whose `typeof` is `"object"`,
passes the type check instead: on a fresh valid key with the package enabled
and no stored file, the key is registered and `"null"` is persisted, and the
bind then fails with the TypeError thrown by the `Proxy` constructor — a
different error, raised only after those side effects. -/
theorem claim_C8_typeof_guard (st : CasholaState) (fs : FS) (key : String)
    (obj : JsValue) :
    (typeof obj ≠ "object" →
      Cashola.remember st fs key obj
        = ⟨Except.error (.plainError
            ("Typeof object is '" ++ typeof obj ++ "', but must be 'object'.")),
           st, fs⟩)
    ∧ (obj = JsValue.null →
       lookupKey st.keyToFileMap key = none →
       isValidFilename key = true →
       st.ignoreCashola = false →
       lookupFile fs.files (Cashola.createFilePath st key) = none →
       ∃ ds, Cashola.remember st fs key obj
         = ⟨Except.error (.plainError
              "Cannot create proxy with a non-object as target or handler"),
            Cashola.registerKey st key,
            ⟨ds, setFile fs.files (Cashola.createFilePath st key)
              (stringify JsValue.null)⟩⟩) := by
  constructor
  · intro h
    have hb : (typeof obj == "object") = false := by
      simp [h]
    have hci : Cashola.checkInput st key obj
        = (Except.error (.plainError
            ("Typeof object is '" ++ typeof obj ++ "', but must be 'object'.")), st) := by
      unfold Cashola.checkInput
      rw [hb]
      simp
    simp only [Cashola.remember, hci]
  · intro hnull hdup hval hig hnofile
    subst hnull
    obtain ⟨ds, h1⟩ := remember_saves_initial
      (show typeof JsValue.null = "object" from rfl) hdup hval hig hnofile
    refine ⟨ds, ?_⟩
    rw [h1]
    rfl

/-- C8 witness: a function initial value is rejected with no side effects,
and a `null` initial value on a fresh valid key is registered and persisted
and then fails with the proxy TypeError. -/
theorem claim_C8_witness :
    (typeof JsValue.fn ≠ "object"
    ∧ Cashola.remember ⟨false, ".cashola", []⟩ ⟨[], []⟩ "k" JsValue.fn
      = ⟨Except.error (.plainError
          ("Typeof object is '" ++ typeof JsValue.fn ++ "', but must be 'object'.")),
         ⟨false, ".cashola", []⟩, ⟨[], []⟩⟩)
    ∧ (∃ ds, Cashola.remember ⟨false, ".cashola", []⟩ ⟨[], []⟩ "nullkey" JsValue.null
      = ⟨Except.error (.plainError
           "Cannot create proxy with a non-object as target or handler"),
         Cashola.registerKey ⟨false, ".cashola", []⟩ "nullkey",
         ⟨ds, setFile [] (Cashola.createFilePath ⟨false, ".cashola", []⟩ "nullkey")
           (stringify JsValue.null)⟩⟩) :=
  ⟨⟨by decide,
    (claim_C8_typeof_guard ⟨false, ".cashola", []⟩ ⟨[], []⟩ "k" JsValue.fn).1
      (by decide)⟩,
   (claim_C8_typeof_guard ⟨false, ".cashola", []⟩ ⟨[], []⟩ "nullkey" JsValue.null).2
     rfl rfl rfl rfl rfl⟩

/-- C9 counterexample: clearing a key that was NEVER bound in the current
registry succeeds and removes the file, because `clearSync` computes the path
from the current configuration alone and never consults the registry — this
refutes "fails whenever that key was never bound in the current registry"
(and is what the repository's own `bin/clear.js` relies on: a fresh process
clears keys it never bound). -/
theorem claim_C9_counterexample :
    Cashola.clearSync ⟨false, ".cashola", []⟩
        ⟨[".cashola"], [(⟨".cashola", "a.json"⟩, "\x7b\x7d")]⟩ "a"
      = (Except.ok (), ⟨[".cashola"], []⟩) := rfl

/-- C9 (amended): the single-key clear operations remove exactly the one file
`<storageDir>/<key>.json` — every other file is untouched — and fail with the
`ENOENT` error exactly when that file is missing, regardless of whether the
key is bound in the registry. -/
theorem claim_C9_clear (st : CasholaState) (fs : FS) (key : String) :
    ((lookupFile fs.files (Cashola.createFilePath st key)).isSome = true →
      Cashola.clearSync st fs key
        = (Except.ok (),
           { fs with files := removeFile fs.files (Cashola.createFilePath st key) })
      ∧ Cashola.clear st fs key
        = (Except.ok (),
           { fs with files := removeFile fs.files (Cashola.createFilePath st key) })
      ∧ (∀ q, q ≠ Cashola.createFilePath st key →
          lookupFile (Cashola.clearSync st fs key).2.files q = lookupFile fs.files q)
      ∧ lookupFile (Cashola.clearSync st fs key).2.files
          (Cashola.createFilePath st key) = none)
    ∧ (lookupFile fs.files (Cashola.createFilePath st key) = none →
      Cashola.clearSync st fs key = (Except.error (.fsError "ENOENT"), fs)
      ∧ Cashola.clear st fs key = (Except.error (.fsError "ENOENT"), fs)) := by
  constructor
  · intro hsome
    have hc : Cashola.clearSync st fs key
        = (Except.ok (),
           { fs with files := removeFile fs.files (Cashola.createFilePath st key) }) := by
      unfold Cashola.clearSync rmFS
      rw [if_pos hsome]
    refine ⟨hc, hc, ?_, ?_⟩
    · intro q hq
      rw [hc]
      show lookupFile (removeFile fs.files (Cashola.createFilePath st key)) q = _
      rw [lookupFile_removeFile, if_neg hq]
    · rw [hc]
      show lookupFile (removeFile fs.files (Cashola.createFilePath st key)) _ = none
      rw [lookupFile_removeFile, if_pos rfl]
  · intro hnone
    have hb : (lookupFile fs.files (Cashola.createFilePath st key)).isSome = false := by
      rw [hnone]
      rfl
    have hc : Cashola.clearSync st fs key = (Except.error (.fsError "ENOENT"), fs) := by
      unfold Cashola.clearSync rmFS
      rw [if_neg (by rw [hb]; exact Bool.false_ne_true)]
    exact ⟨hc, hc⟩

/-- C9 witness: clearing an existing file removes exactly it, and clearing a
missing file fails with `ENOENT`. -/
theorem claim_C9_witness :
    (lookupFile [((⟨".cashola", "a.json"⟩ : StoragePath), "\x7b\x7d"),
        (⟨".cashola", "b.json"⟩, "[]")] (Cashola.createFilePath ⟨false, ".cashola", []⟩ "a")).isSome = true
    ∧ Cashola.clearSync ⟨false, ".cashola", []⟩
        ⟨[".cashola"], [(⟨".cashola", "a.json"⟩, "\x7b\x7d"), (⟨".cashola", "b.json"⟩, "[]")]⟩ "a"
      = (Except.ok (),
         { dirs := [".cashola"],
           files := removeFile [(⟨".cashola", "a.json"⟩, "\x7b\x7d"), (⟨".cashola", "b.json"⟩, "[]")]
             (Cashola.createFilePath ⟨false, ".cashola", []⟩ "a") })
    ∧ Cashola.clearSync ⟨false, ".cashola", []⟩ ⟨[], []⟩ "missing"
      = (Except.error (.fsError "ENOENT"), ⟨[], []⟩) :=
  ⟨rfl,
    ((claim_C9_clear ⟨false, ".cashola", []⟩
      ⟨[".cashola"], [(⟨".cashola", "a.json"⟩, "\x7b\x7d"), (⟨".cashola", "b.json"⟩, "[]")]⟩
      "a").1 rfl).1,
    ((claim_C9_clear ⟨false, ".cashola", []⟩ ⟨[], []⟩ "missing").2 rfl).1⟩

/-- C10: `clear`/`clearSync` compute their target from the storage directory
configured at the moment of the call, not from the registry: after
reconfiguring `storageDir` to a different directory, the registry is
unchanged, clearing a bound key targets `<newDir>/<key>.json` and never
touches the key's recorded file, while a live binding's mutation write
(`save`) still goes to the originally recorded location. -/
theorem claim_C10_clear_current_config (st : CasholaState) (fs : FS)
    (env : String → Option String) (key d2 : String) (obj : JsValue)
    (hd2 : d2 ≠ "")
    (hne : st.storageDir ≠ d2)
    (hreg : lookupKey st.keyToFileMap key = some (Cashola.createFilePath st key))
    (hdir : st.storageDir ∈ fs.dirs) :
    (Cashola.configure st env ⟨some d2, none, none⟩).keyToFileMap = st.keyToFileMap
    ∧ Cashola.createFilePath (Cashola.configure st env ⟨some d2, none, none⟩) key
        = ⟨d2, key ++ ".json"⟩
    ∧ lookupFile (Cashola.clearSync (Cashola.configure st env ⟨some d2, none, none⟩)
          fs key).2.files (Cashola.createFilePath st key)
        = lookupFile fs.files (Cashola.createFilePath st key)
    ∧ Cashola.save (Cashola.configure st env ⟨some d2, none, none⟩) fs key obj
        = (Except.ok (), { fs with files := setFile fs.files (Cashola.createFilePath st key) (stringify obj) }) := by
  have hconf : Cashola.configure st env ⟨some d2, none, none⟩
      = { st with storageDir := d2 } := by
    unfold Cashola.configure Cashola.truthyStr
    simp [hd2]
  have hpne : Cashola.createFilePath st key ≠ (⟨d2, key ++ ".json"⟩ : StoragePath) := by
    intro he
    exact hne (congrArg StoragePath.dir he)
  refine ⟨by rw [hconf], by rw [hconf]; rfl, ?_, ?_⟩
  · rw [hconf]
    have htgt : Cashola.createFilePath ({ st with storageDir := d2 }) key
        = ⟨d2, key ++ ".json"⟩ := rfl
    unfold Cashola.clearSync rmFS
    rw [htgt]
    by_cases hf : (lookupFile fs.files (⟨d2, key ++ ".json"⟩ : StoragePath)).isSome = true
    · rw [if_pos hf]
      show lookupFile (removeFile fs.files ⟨d2, key ++ ".json"⟩)
        (Cashola.createFilePath st key) = _
      rw [lookupFile_removeFile, if_neg hpne]
    · rw [if_neg hf]
  · rw [hconf]
    have hlk : lookupKey ({ st with storageDir := d2 } : CasholaState).keyToFileMap key
        = some (Cashola.createFilePath st key) := hreg
    simp only [Cashola.save, hlk, Option.getD_some, writeFS]
    rw [if_pos (show (Cashola.createFilePath st key).dir ∈ fs.dirs from hdir)]

/-- C10 witness: a concrete reconfiguration from `olddir` to `newdir`. -/
theorem claim_C10_witness :
    lookupKey [("k", (⟨"olddir", "k.json"⟩ : StoragePath))] "k"
      = some (Cashola.createFilePath ⟨false, "olddir", [("k", ⟨"olddir", "k.json"⟩)]⟩ "k")
    ∧ ((Cashola.configure ⟨false, "olddir", [("k", ⟨"olddir", "k.json"⟩)]⟩
          (fun _ => none) ⟨some "newdir", none, none⟩).keyToFileMap
        = [("k", ⟨"olddir", "k.json"⟩)]
      ∧ Cashola.createFilePath (Cashola.configure
          ⟨false, "olddir", [("k", ⟨"olddir", "k.json"⟩)]⟩
          (fun _ => none) ⟨some "newdir", none, none⟩) "k"
        = ⟨"newdir", "k" ++ ".json"⟩
      ∧ lookupFile (Cashola.clearSync (Cashola.configure
            ⟨false, "olddir", [("k", ⟨"olddir", "k.json"⟩)]⟩
            (fun _ => none) ⟨some "newdir", none, none⟩)
            ⟨["olddir"], [(⟨"olddir", "k.json"⟩, "\x7b\x7d")]⟩ "k").2.files
          (Cashola.createFilePath ⟨false, "olddir", [("k", ⟨"olddir", "k.json"⟩)]⟩ "k")
        = lookupFile [(⟨"olddir", "k.json"⟩, "\x7b\x7d")]
            (Cashola.createFilePath ⟨false, "olddir", [("k", ⟨"olddir", "k.json"⟩)]⟩ "k")
      ∧ Cashola.save (Cashola.configure
            ⟨false, "olddir", [("k", ⟨"olddir", "k.json"⟩)]⟩
            (fun _ => none) ⟨some "newdir", none, none⟩)
            ⟨["olddir"], [(⟨"olddir", "k.json"⟩, "\x7b\x7d")]⟩ "k" (JsValue.obj [])
        = (Except.ok (), { dirs := ["olddir"], files := setFile [(⟨"olddir", "k.json"⟩, "\x7b\x7d")] (Cashola.createFilePath ⟨false, "olddir", [("k", ⟨"olddir", "k.json"⟩)]⟩ "k") (stringify (JsValue.obj [])) })) :=
  ⟨rfl, claim_C10_clear_current_config
    ⟨false, "olddir", [("k", ⟨"olddir", "k.json"⟩)]⟩
    ⟨["olddir"], [(⟨"olddir", "k.json"⟩, "\x7b\x7d")]⟩
    (fun _ => none) "k" "newdir" (JsValue.obj [])
    (by decide) (by decide) rfl (by decide)⟩
